import Mathlib

/-!
# Verification of the solana-streamer event-parser pipeline

This file gives a shallow embedding, in Lean 4, of the parts of the
solana-streamer repository that the specification's claims are about:

* the bounds-checked little-endian byte readers
  (`src/streaming/event_parser/common/utils.rs`);
* the high-performance clock
  (`src/streaming/event_parser/common/high_performance_clock.rs`);
* the object pools (`src/streaming/grpc/pool.rs`, `src/streaming/shred/pool.rs`);
* the event dispatcher (`src/streaming/event_parser/core/dispatcher.rs`);
* the Raydium CPMM instruction decoders
  (`src/streaming/event_parser/protocols/raydium_cpmm/parser.rs`);
* the transaction walker and event post-processor
  (`src/streaming/event_parser/core/event_parser.rs`).

Machine integers are modelled as `Nat` / `Int`; `usize` arithmetic that can
wrap is made explicit with `% USIZE`.  Rust functions that can panic are
embedded with an explicit `panicked` result constructor.  Modules of the
repository that are referenced but whose source is not available are modelled
from the specification; each such definition carries a doc comment starting
with `Modelled from the spec:`.
-/

/-- The number of values of Rust's 64-bit `usize`. -/
def USIZE : Nat := 2 ^ 64

/-- Little-endian value of a byte list: `u64::from_le_bytes` and friends,
generalised to any length (byte 0 is least significant). -/
def leBytesVal : List Nat → Nat
  | [] => 0
  | b :: rest => b + 256 * leBytesVal rest

/-- Result of running a Rust function that can panic: either a panic, or a
normally returned value (here an `Option`, mirroring `Option<T>` returns). -/
inductive ReadResult (α : Type) where
  | panicked : ReadResult α
  | value : Option α → ReadResult α
deriving DecidableEq, Repr

/-- Core of the `read_T_le` readers of
`src/streaming/event_parser/common/utils.rs`.  Each reader computes
`offset + width` in `usize` arithmetic (wrapping, release semantics), returns
`None` when `data.len() < offset + width`, and otherwise slices
`data[offset..offset+width]` and converts little-endian.  When the addition
wrapped and the bounds check nevertheless passed, the slice operation
`data[offset..stop]` has its start after its end and panics. -/
def readLeCore (width : Nat) (data : List Nat) (offset : Nat) : ReadResult Nat :=
  let stop := (offset + width) % USIZE
  if data.length < stop then ReadResult.value none
  else if offset ≤ stop then
    ReadResult.value (some (leBytesVal ((data.drop offset).take width)))
  else ReadResult.panicked

/-- `read_u8_le` from `utils.rs` (width 1). -/
def read_u8_le (data : List Nat) (offset : Nat) : ReadResult Nat :=
  readLeCore 1 data offset

/-- `read_u16_le` from `utils.rs` (width 2). -/
def read_u16_le (data : List Nat) (offset : Nat) : ReadResult Nat :=
  readLeCore 2 data offset

/-- `read_u32_le` from `utils.rs` (width 4). -/
def read_u32_le (data : List Nat) (offset : Nat) : ReadResult Nat :=
  readLeCore 4 data offset

/-- `read_u64_le` from `utils.rs` (width 8). -/
def read_u64_le (data : List Nat) (offset : Nat) : ReadResult Nat :=
  readLeCore 8 data offset

/-- `read_u128_le` from `utils.rs` (width 16). -/
def read_u128_le (data : List Nat) (offset : Nat) : ReadResult Nat :=
  readLeCore 16 data offset

/-- Two's-complement reinterpretation of a 32-bit unsigned value, modelling
`i32::from_le_bytes`. -/
def toSigned32 (n : Nat) : Int :=
  if n < 2 ^ 31 then (n : Int) else (n : Int) - 2 ^ 32

/-- `read_i32_le` from `utils.rs` (width 4, signed result). -/
def read_i32_le (data : List Nat) (offset : Nat) : ReadResult Int :=
  match readLeCore 4 data offset with
  | ReadResult.panicked => ReadResult.panicked
  | ReadResult.value o => ReadResult.value (o.map toSigned32)

/-- The clock state of `HighPerformanceClock`
(`src/streaming/event_parser/common/high_performance_clock.rs`).
`base_instant` is the monotonic reading (in microseconds) captured when the
base pair was set, `base_timestamp_us` the wall-clock microsecond timestamp
captured with it.  The monotonic and wall clocks are external inputs, so the
operations below take the current readings as arguments. -/
structure HighPerformanceClock where
  base_instant : Nat
  base_timestamp_us : Int
  last_calibration : Nat
  calibration_interval_secs : Nat
deriving DecidableEq, Repr

/-- `now_micros`: `base_timestamp_us + (mono_now - base_instant)`, where
`mono_now - base_instant` is the `base_instant.elapsed()` duration (the
monotonic clock never runs backwards, so callers satisfy
`base_instant ≤ mono`). -/
def HighPerformanceClock.now_micros (c : HighPerformanceClock) (mono : Nat) : Int :=
  c.base_timestamp_us + ((mono - c.base_instant : Nat) : Int)

/-- `recalibrate`: reads both clocks, computes the drift of the wall clock
against the monotonic projection, and resets the base pair when the absolute
drift exceeds 1000 µs; `last_calibration` is always updated. -/
def HighPerformanceClock.recalibrate (c : HighPerformanceClock) (mono : Nat)
    (wall : Int) : HighPerformanceClock :=
  if 1000 < (wall - c.now_micros mono).natAbs then
    { c with base_instant := mono, base_timestamp_us := wall, last_calibration := mono }
  else { c with last_calibration := mono }

/-- One observable operation on a clock instance: a `now_micros` call, or a
recalibration at the given monotonic/wall readings. -/
inductive ClockOp where
  | call (mono : Nat)
  | recal (mono : Nat) (wall : Int)
deriving DecidableEq, Repr

/-- The values returned by the `now_micros` calls in a sequence of clock
operations. -/
def clockOutputs : HighPerformanceClock → List ClockOp → List Int
  | _, [] => []
  | c, ClockOp.call mono :: rest => c.now_micros mono :: clockOutputs c rest
  | c, ClockOp.recal mono wall :: rest =>
      clockOutputs (c.recalibrate mono wall) rest

/-- A sequence of clock operations is good (starting after monotonic reading
`prev`) when its monotonic readings are non-decreasing and no recalibration
observes a drift below −1000 µs (i.e. no recalibration steps the base pair
backwards). -/
def goodOps : HighPerformanceClock → Nat → List ClockOp → Bool
  | _, _, [] => true
  | c, prev, ClockOp.call mono :: rest =>
      decide (prev ≤ mono) && goodOps c mono rest
  | c, prev, ClockOp.recal mono wall :: rest =>
      decide (prev ≤ mono) &&
      decide ((-1000 : Int) ≤ wall - c.now_micros mono) &&
      goodOps (c.recalibrate mono wall) mono rest

/-- A 32-byte account/program key (`solana_sdk::pubkey::Pubkey`), modelled by
its numeric value; `0` is the all-zeroes key `Pubkey::default()`. -/
abbrev Pubkey := Nat

/-- A protobuf timestamp (`prost_types::Timestamp`): seconds and nanoseconds. -/
structure Timestamp where
  seconds : Int
  nanos : Int
deriving DecidableEq, Repr

/-- Modelled from the spec: the pooled account record (`AccountPretty`,
its defining module `grpc/types.rs` is not under `src/`); fields are those
read and written by `grpc/pool.rs` and the account parser:
`{pubkey, owner, data, lamports, executable, rent_epoch, slot, signature,
recv_us}`.  `signature` is the 64-byte transaction signature, modelled by its
numeric value. -/
structure AccountPretty where
  slot : Nat
  signature : Nat
  pubkey : Pubkey
  executable : Bool
  lamports : Nat
  owner : Pubkey
  rent_epoch : Nat
  data : List Nat
  recv_us : Int
deriving DecidableEq, Repr

/-- `AccountPretty::default()`: all fields zero / empty. -/
instance : Inhabited AccountPretty := ⟨⟨0, 0, 0, false, 0, 0, 0, [], 0⟩⟩

/-- Modelled from the spec: the pooled transaction record
(`TransactionPretty`, defining module `grpc/types.rs` not under `src/`);
fields are those read and written by `grpc/pool.rs`.  The embedded
`SubscribeUpdateTransactionInfo` payload is opaque to the pool and modelled
by a numeric value. -/
structure TransactionPretty where
  slot : Nat
  transaction_index : Option Nat
  block_time : Option Timestamp
  block_hash : List Nat
  signature : Nat
  is_vote : Bool
  recv_us : Int
  grpc_tx : Nat
deriving DecidableEq, Repr

/-- `TransactionPretty::default()`. -/
instance : Inhabited TransactionPretty := ⟨⟨0, none, none, [], 0, false, 0, 0⟩⟩

/-- Modelled from the spec: the pooled block-meta record (`BlockMetaPretty`,
defining module `grpc/types.rs` not under `src/`); fields are those read and
written by `grpc/pool.rs`. -/
structure BlockMetaPretty where
  slot : Nat
  block_hash : List Nat
  block_time : Option Timestamp
  recv_us : Int
deriving DecidableEq, Repr

/-- `BlockMetaPretty::default()`. -/
instance : Inhabited BlockMetaPretty := ⟨⟨0, [], none, 0⟩⟩

/-- The shred-path pooled record `TransactionWithSlot`
(`src/streaming/grpc/mod.rs`): an opaque `VersionedTransaction` (modelled
numerically), a slot and a receive timestamp. -/
structure TransactionWithSlot where
  transaction : Nat
  slot : Nat
  recv_us : Int
deriving DecidableEq, Repr

/-- `TransactionWithSlot::default()`. -/
instance : Inhabited TransactionWithSlot := ⟨⟨0, 0, 0⟩⟩

/-- The field-clearing performed by `PooledAccountPretty::drop`
(`grpc/pool.rs`): clears `data`, `signature`, `pubkey` and `owner`; `slot`,
`lamports`, `executable`, `rent_epoch` and `recv_us` are left as they are. -/
def accountDropClear (r : AccountPretty) : AccountPretty :=
  { r with data := [], signature := 0, pubkey := 0, owner := 0 }

/-- The field-clearing performed by `PooledTransactionPretty::drop`
(`grpc/pool.rs`): clears `block_hash`, `block_time` and `signature`; `slot`,
`transaction_index`, `is_vote`, `recv_us` and `grpc_tx` are left as they
are. -/
def transactionDropClear (r : TransactionPretty) : TransactionPretty :=
  { r with block_hash := [], block_time := none, signature := 0 }

/-- The field-clearing performed by `PooledBlockMetaPretty::drop`
(`grpc/pool.rs`): clears `block_hash` and `block_time`. -/
def blockMetaDropClear (r : BlockMetaPretty) : BlockMetaPretty :=
  { r with block_hash := [], block_time := none }

/-- The field-clearing performed by `PooledTransactionWithSlot::drop`
(`shred/pool.rs`): resets `slot`, `recv_us` and the transaction payload. -/
def transactionWithSlotDropClear (r : TransactionWithSlot) : TransactionWithSlot :=
  { r with slot := 0, recv_us := 0, transaction := 0 }

/-- Release of a handle back into the pool queue (the `Drop` impls of
`grpc/pool.rs` and `shred/pool.rs`): when the queue holds fewer than
`maxSize` entries the record is cleared and pushed to the back; otherwise
the queue is unchanged and the record is freed (without being cleared). -/
def poolRelease {α : Type} (clear : α → α) (maxSize : Nat) (q : List α) (r : α) :
    List α :=
  if q.length < maxSize then q ++ [clear r] else q

/-- Acquire from the pool queue (`acquire` in `grpc/pool.rs` /
`shred/pool.rs`): pop the front entry, or allocate a fresh default when the
queue is empty. -/
def poolAcquire {α : Type} (defaultVal : α) (q : List α) : α × List α :=
  match q with
  | [] => (defaultVal, [])
  | x :: rest => (x, rest)

/-- One pool operation: an acquire, or the drop of a handle holding record
`r`. -/
inductive PoolOp (α : Type) where
  | acquire
  | release (r : α)
deriving DecidableEq, Repr

/-- The pool queue after a sequence of acquires and handle drops
(`defaultVal` is the freshly allocated record used when acquiring from an
empty queue). -/
def runPoolOps {α : Type} (defaultVal : α) (clear : α → α) (maxSize : Nat) :
    List α → List (PoolOp α) → List α
  | q, [] => q
  | q, PoolOp.acquire :: rest =>
      runPoolOps defaultVal clear maxSize (poolAcquire defaultVal q).2 rest
  | q, PoolOp.release r :: rest =>
      runPoolOps defaultVal clear maxSize (poolRelease clear maxSize q r) rest

/-- The `Protocol` enum of the event-parser core. -/
inductive Protocol where
  | PumpFun
  | PumpSwap
  | Bonk
  | RaydiumCpmm
  | RaydiumClmm
  | RaydiumAmmV4
  | MeteoraDammV2
deriving DecidableEq, Repr

/-- The `ProtocolType` metadata tag: the seven protocols plus `Common`. -/
inductive ProtocolType where
  | PumpFun
  | PumpSwap
  | Bonk
  | RaydiumCpmm
  | RaydiumClmm
  | RaydiumAmmV4
  | MeteoraDammV2
  | Common
deriving DecidableEq, Repr

/-- `ProtocolType::default()` is `Common`. -/
instance : Inhabited ProtocolType := ⟨ProtocolType.Common⟩

/-- Modelled from the spec: the `EventType` enum (its defining module is not
under `src/`); only the variants mentioned by the embedded code are listed,
plus a default placeholder. -/
inductive EventType where
  | Unknown
  | RaydiumCpmmSwapBaseInput
  | RaydiumCpmmSwapBaseOutput
  | RaydiumCpmmDeposit
  | RaydiumCpmmInitPool
  | RaydiumCpmmWithdraw
  | TokenAccount
  | NonceAccount
  | PumpFunMigrate
  | ComputeBudget
deriving DecidableEq, Repr

/-- `EventType::default()`. -/
instance : Inhabited EventType := ⟨EventType.Unknown⟩

/-- The normalized swap summary `SwapData`
(spec §3: `{from_mint, to_mint, from_amount, to_amount, user}`). -/
structure SwapData where
  from_mint : Pubkey
  to_mint : Pubkey
  from_amount : Nat
  to_amount : Nat
  user : Pubkey
deriving DecidableEq, Repr

/-- Modelled from the spec: `EventMetadata` (spec §3; its defining module is
not under `src/`).  Field list follows the spec's data model and the uses in
`event_parser.rs` / `dispatcher.rs` / `account_event_parser.rs`. -/
structure EventMetadata where
  signature : Nat
  slot : Nat
  block_time : Int
  block_time_ms : Int
  protocol : ProtocolType
  event_type : EventType
  program_id : Pubkey
  outer_index : Int
  inner_index : Option Int
  recv_us : Int
  handle_us : Int
  transaction_index : Option Nat
  swap_data : Option SwapData
deriving DecidableEq, Repr

/-- `EventMetadata::new` as invoked by the walker: positional fields, with
`handle_us` starting at 0 and no swap data. -/
def EventMetadata.new (signature : Nat) (slot : Nat) (block_time : Int)
    (block_time_ms : Int) (protocol : ProtocolType) (event_type : EventType)
    (program_id : Pubkey) (outer_index : Int) (inner_index : Option Int)
    (recv_us : Int) (transaction_index : Option Nat) : EventMetadata :=
  ⟨signature, slot, block_time, block_time_ms, protocol, event_type, program_id,
   outer_index, inner_index, recv_us, 0, transaction_index, none⟩

/-- Modelled from the spec: `PumpFunCreateTokenEvent` payload (defining
module not under `src/`); the fields used by the post-processor. -/
structure PumpFunCreateTokenEvent where
  metadata : EventMetadata
  user : Pubkey
  creator : Pubkey
deriving DecidableEq, Repr

/-- Modelled from the spec: `PumpFunTradeEvent` payload (defining module not
under `src/`); the fields used by the post-processor. -/
structure PumpFunTradeEvent where
  metadata : EventMetadata
  user : Pubkey
  creator : Pubkey
  is_buy : Bool
  sol_amount : Nat
  token_amount : Nat
  is_dev_create_token_trade : Bool
  is_bot : Bool
deriving DecidableEq, Repr

/-- Modelled from the spec: the PumpFun MIGRATE outer-instruction event. -/
structure PumpFunMigrateEvent where
  metadata : EventMetadata
deriving DecidableEq, Repr

/-- Modelled from the spec: `PumpSwapBuyEvent` payload (also used for the
buy-exact-quote-in variant); the fields used by the post-processor. -/
structure PumpSwapBuyEvent where
  metadata : EventMetadata
  user_quote_amount_in : Nat
  base_amount_out : Nat
deriving DecidableEq, Repr

/-- Modelled from the spec: `PumpSwapSellEvent` payload; the fields used by
the post-processor. -/
structure PumpSwapSellEvent where
  metadata : EventMetadata
  base_amount_in : Nat
  user_quote_amount_out : Nat
deriving DecidableEq, Repr

/-- Modelled from the spec: `BonkPoolCreateEvent` payload; the fields used
by the post-processor. -/
structure BonkPoolCreateEvent where
  metadata : EventMetadata
  creator : Pubkey
deriving DecidableEq, Repr

/-- Modelled from the spec: `BonkTradeEvent` payload; the fields used by the
post-processor. -/
structure BonkTradeEvent where
  metadata : EventMetadata
  payer : Pubkey
  is_dev_create_token_trade : Bool
  is_bot : Bool
deriving DecidableEq, Repr

/-- `RaydiumCpmmSwapEvent` as constructed by
`protocols/raydium_cpmm/parser.rs` (field list from the construction sites;
`max_amount_in` and `amount_out` come from `..Default::default()` in the
swap-base-input case and vice versa). -/
structure RaydiumCpmmSwapEvent where
  metadata : EventMetadata
  amount_in : Nat
  minimum_amount_out : Nat
  max_amount_in : Nat
  amount_out : Nat
  payer : Pubkey
  authority : Pubkey
  amm_config : Pubkey
  pool_state : Pubkey
  input_token_account : Pubkey
  output_token_account : Pubkey
  input_vault : Pubkey
  output_vault : Pubkey
  input_token_program : Pubkey
  output_token_program : Pubkey
  input_token_mint : Pubkey
  output_token_mint : Pubkey
  observation_state : Pubkey
deriving DecidableEq, Repr

/-- `RaydiumCpmmDepositEvent` as constructed by the CPMM parser. -/
structure RaydiumCpmmDepositEvent where
  metadata : EventMetadata
  lp_token_amount : Nat
  maximum_token0_amount : Nat
  maximum_token1_amount : Nat
  owner : Pubkey
  authority : Pubkey
  pool_state : Pubkey
  owner_lp_token : Pubkey
  token0_account : Pubkey
  token1_account : Pubkey
  token0_vault : Pubkey
  token1_vault : Pubkey
  token_program : Pubkey
  token_program2022 : Pubkey
  vault0_mint : Pubkey
  vault1_mint : Pubkey
  lp_mint : Pubkey
deriving DecidableEq, Repr

/-- `RaydiumCpmmWithdrawEvent` as constructed by the CPMM parser. -/
structure RaydiumCpmmWithdrawEvent where
  metadata : EventMetadata
  lp_token_amount : Nat
  minimum_token0_amount : Nat
  minimum_token1_amount : Nat
  owner : Pubkey
  authority : Pubkey
  pool_state : Pubkey
  owner_lp_token : Pubkey
  token0_account : Pubkey
  token1_account : Pubkey
  token0_vault : Pubkey
  token1_vault : Pubkey
  token_program : Pubkey
  token_program2022 : Pubkey
  vault0_mint : Pubkey
  vault1_mint : Pubkey
  lp_mint : Pubkey
  memo_program : Pubkey
deriving DecidableEq, Repr

/-- `RaydiumCpmmInitializeEvent` (source name) as constructed by the CPMM
parser; named `RaydiumCpmmInitEvent` here. -/
structure RaydiumCpmmInitEvent where
  metadata : EventMetadata
  init_amount0 : Nat
  init_amount1 : Nat
  open_time : Nat
  creator : Pubkey
  amm_config : Pubkey
  authority : Pubkey
  pool_state : Pubkey
  token0_mint : Pubkey
  token1_mint : Pubkey
  lp_mint : Pubkey
  creator_token0 : Pubkey
  creator_token1 : Pubkey
  creator_lp_token : Pubkey
  token0_vault : Pubkey
  token1_vault : Pubkey
  create_pool_fee : Pubkey
  observation_state : Pubkey
  token_program : Pubkey
  token0_program : Pubkey
  token1_program : Pubkey
  associated_token_program : Pubkey
  system_program : Pubkey
  rent : Pubkey
deriving DecidableEq, Repr

/-- Modelled from the spec: a compute-budget event (decoder module not under
`src/`): metadata plus the raw payload. -/
structure ComputeBudgetEvent where
  metadata : EventMetadata
  data : List Nat
deriving DecidableEq, Repr

/-- The `DexEvent` tagged union, restricted to the variants the embedded
code constructs or the post-processor matches on. -/
inductive DexEvent where
  | PumpFunCreateTokenEvent (e : PumpFunCreateTokenEvent)
  | PumpFunCreateV2TokenEvent (e : PumpFunCreateTokenEvent)
  | PumpFunTradeEvent (e : PumpFunTradeEvent)
  | PumpFunMigrateEvent (e : PumpFunMigrateEvent)
  | PumpSwapBuyEvent (e : PumpSwapBuyEvent)
  | PumpSwapBuyExactQuoteInEvent (e : PumpSwapBuyEvent)
  | PumpSwapSellEvent (e : PumpSwapSellEvent)
  | BonkPoolCreateEvent (e : BonkPoolCreateEvent)
  | BonkTradeEvent (e : BonkTradeEvent)
  | RaydiumCpmmSwapEvent (e : RaydiumCpmmSwapEvent)
  | RaydiumCpmmDepositEvent (e : RaydiumCpmmDepositEvent)
  | RaydiumCpmmWithdrawEvent (e : RaydiumCpmmWithdrawEvent)
  | RaydiumCpmmInitEvent (e : RaydiumCpmmInitEvent)
  | ComputeBudgetEvent (e : ComputeBudgetEvent)
deriving DecidableEq, Repr

/-- `event.metadata()`. -/
def DexEvent.metadata : DexEvent → EventMetadata
  | .PumpFunCreateTokenEvent e => e.metadata
  | .PumpFunCreateV2TokenEvent e => e.metadata
  | .PumpFunTradeEvent e => e.metadata
  | .PumpFunMigrateEvent e => e.metadata
  | .PumpSwapBuyEvent e => e.metadata
  | .PumpSwapBuyExactQuoteInEvent e => e.metadata
  | .PumpSwapSellEvent e => e.metadata
  | .BonkPoolCreateEvent e => e.metadata
  | .BonkTradeEvent e => e.metadata
  | .RaydiumCpmmSwapEvent e => e.metadata
  | .RaydiumCpmmDepositEvent e => e.metadata
  | .RaydiumCpmmWithdrawEvent e => e.metadata
  | .RaydiumCpmmInitEvent e => e.metadata
  | .ComputeBudgetEvent e => e.metadata

/-- Replace the metadata of an event (the write half of `metadata_mut()`). -/
def DexEvent.withMetadata : DexEvent → EventMetadata → DexEvent
  | .PumpFunCreateTokenEvent e, m => .PumpFunCreateTokenEvent { e with metadata := m }
  | .PumpFunCreateV2TokenEvent e, m => .PumpFunCreateV2TokenEvent { e with metadata := m }
  | .PumpFunTradeEvent e, m => .PumpFunTradeEvent { e with metadata := m }
  | .PumpFunMigrateEvent e, m => .PumpFunMigrateEvent { e with metadata := m }
  | .PumpSwapBuyEvent e, m => .PumpSwapBuyEvent { e with metadata := m }
  | .PumpSwapBuyExactQuoteInEvent e, m => .PumpSwapBuyExactQuoteInEvent { e with metadata := m }
  | .PumpSwapSellEvent e, m => .PumpSwapSellEvent { e with metadata := m }
  | .BonkPoolCreateEvent e, m => .BonkPoolCreateEvent { e with metadata := m }
  | .BonkTradeEvent e, m => .BonkTradeEvent { e with metadata := m }
  | .RaydiumCpmmSwapEvent e, m => .RaydiumCpmmSwapEvent { e with metadata := m }
  | .RaydiumCpmmDepositEvent e, m => .RaydiumCpmmDepositEvent { e with metadata := m }
  | .RaydiumCpmmWithdrawEvent e, m => .RaydiumCpmmWithdrawEvent { e with metadata := m }
  | .RaydiumCpmmInitEvent e, m => .RaydiumCpmmInitEvent { e with metadata := m }
  | .ComputeBudgetEvent e, m => .ComputeBudgetEvent { e with metadata := m }

/-- `event.metadata_mut().set_swap_data(sd)`. -/
def DexEvent.setSwapData (ev : DexEvent) (sd : SwapData) : DexEvent :=
  ev.withMetadata { ev.metadata with swap_data := some sd }

/-- `event.metadata_mut().handle_us = h`. -/
def DexEvent.setHandleUs (ev : DexEvent) (h : Int) : DexEvent :=
  ev.withMetadata { ev.metadata with handle_us := h }

/-- Modelled from the spec: `PUMPFUN_PROGRAM_ID` — the concrete base58
constant lives in a module that is not under `src/`; the eight program-id
constants are opaque 32-byte values, modelled as distinct numerals. -/
def PUMPFUN_PROGRAM_ID : Pubkey := 101

/-- Modelled from the spec: `PUMPSWAP_PROGRAM_ID` (opaque constant). -/
def PUMPSWAP_PROGRAM_ID : Pubkey := 102

/-- Modelled from the spec: `BONK_PROGRAM_ID` (opaque constant). -/
def BONK_PROGRAM_ID : Pubkey := 103

/-- `RAYDIUM_CPMM_PROGRAM_ID` (`CPMMoo8L3F4NbTegBCKVNunggL7H1ZpdTHKxQB5qKP1C`
in `raydium_cpmm/parser.rs`), modelled as an opaque distinct value. -/
def RAYDIUM_CPMM_PROGRAM_ID : Pubkey := 104

/-- Modelled from the spec: `RAYDIUM_CLMM_PROGRAM_ID` (opaque constant). -/
def RAYDIUM_CLMM_PROGRAM_ID : Pubkey := 105

/-- Modelled from the spec: `RAYDIUM_AMM_V4_PROGRAM_ID` (opaque constant). -/
def RAYDIUM_AMM_V4_PROGRAM_ID : Pubkey := 106

/-- Modelled from the spec: `METEORA_DAMM_V2_PROGRAM_ID` (opaque constant). -/
def METEORA_DAMM_V2_PROGRAM_ID : Pubkey := 107

/-- Modelled from the spec: `COMPUTE_BUDGET_PROGRAM_ID` (opaque constant). -/
def COMPUTE_BUDGET_PROGRAM_ID : Pubkey := 108

/-- `EventDispatcher::match_protocol_by_program_id` (`dispatcher.rs`): the
if-chain over the seven DEX program ids. -/
def match_protocol_by_program_id (program_id : Pubkey) : Option Protocol :=
  if program_id = PUMPFUN_PROGRAM_ID then some Protocol.PumpFun
  else if program_id = PUMPSWAP_PROGRAM_ID then some Protocol.PumpSwap
  else if program_id = BONK_PROGRAM_ID then some Protocol.Bonk
  else if program_id = RAYDIUM_CPMM_PROGRAM_ID then some Protocol.RaydiumCpmm
  else if program_id = RAYDIUM_CLMM_PROGRAM_ID then some Protocol.RaydiumClmm
  else if program_id = RAYDIUM_AMM_V4_PROGRAM_ID then some Protocol.RaydiumAmmV4
  else if program_id = METEORA_DAMM_V2_PROGRAM_ID then some Protocol.MeteoraDammV2
  else none

/-- `EventDispatcher::is_compute_budget_program` (`dispatcher.rs`): a single
equality. -/
def is_compute_budget_program (program_id : Pubkey) : Bool :=
  program_id == COMPUTE_BUDGET_PROGRAM_ID

/-- The `metadata.protocol` stamp of the dispatcher (`dispatcher.rs`): maps
the `Protocol` argument to its `ProtocolType` tag. -/
def protocolTypeOf : Protocol → ProtocolType
  | Protocol.PumpFun => ProtocolType.PumpFun
  | Protocol.PumpSwap => ProtocolType.PumpSwap
  | Protocol.Bonk => ProtocolType.Bonk
  | Protocol.RaydiumCpmm => ProtocolType.RaydiumCpmm
  | Protocol.RaydiumClmm => ProtocolType.RaydiumClmm
  | Protocol.RaydiumAmmV4 => ProtocolType.RaydiumAmmV4
  | Protocol.MeteoraDammV2 => ProtocolType.MeteoraDammV2

/-- Modelled from the spec: the CPMM `SWAP_BASE_IN` discriminator (the
`discriminators` module is not under `src/`; 8-byte opaque constant). -/
def SWAP_BASE_IN : List Nat := [143, 190, 90, 218, 196, 30, 51, 222]

/-- Modelled from the spec: the CPMM `SWAP_BASE_OUT` discriminator. -/
def SWAP_BASE_OUT : List Nat := [55, 217, 98, 86, 163, 74, 180, 173]

/-- Modelled from the spec: the CPMM `DEPOSIT` discriminator. -/
def DEPOSIT : List Nat := [242, 35, 198, 137, 82, 225, 242, 182]

/-- Modelled from the spec: the CPMM pool-creation (`INITIALIZE` in the
source) discriminator. -/
def INIT_POOL_DISC : List Nat := [175, 175, 109, 31, 13, 152, 155, 237]

/-- Modelled from the spec: the CPMM `WITHDRAW` discriminator. -/
def WITHDRAW : List Nat := [183, 18, 70, 156, 148, 109, 161, 34]

/-- The PumpFun MIGRATE outer discriminator (`PUMPFUN_MIGRATE_IX` in
`event_parser.rs`). -/
def PUMPFUN_MIGRATE_IX : List Nat := [155, 234, 231, 146, 236, 158, 162, 30]

/-- Unwrap a reader result that is statically known not to panic (the CPMM
parsers only read within the length guard they check first). -/
def readValue (r : ReadResult Nat) : Option Nat :=
  match r with
  | ReadResult.panicked => none
  | ReadResult.value v => v

/-- `parse_swap_base_input_instruction` (`raydium_cpmm/parser.rs`): guard
`data.len() < 16 || accounts.len() < 13`, then two u64 reads and 13
positional account slots; `max_amount_in`/`amount_out` stay at their
defaults. -/
def parse_swap_base_input_instruction (data : List Nat) (accounts : List Pubkey)
    (metadata : EventMetadata) : Option DexEvent :=
  if data.length < 16 ∨ accounts.length < 13 then none
  else
    match readValue (read_u64_le data 0), readValue (read_u64_le data 8) with
    | some amount_in, some minimum_amount_out =>
        some (DexEvent.RaydiumCpmmSwapEvent
          { metadata := metadata
            amount_in := amount_in
            minimum_amount_out := minimum_amount_out
            max_amount_in := 0
            amount_out := 0
            payer := accounts.getD 0 0
            authority := accounts.getD 1 0
            amm_config := accounts.getD 2 0
            pool_state := accounts.getD 3 0
            input_token_account := accounts.getD 4 0
            output_token_account := accounts.getD 5 0
            input_vault := accounts.getD 6 0
            output_vault := accounts.getD 7 0
            input_token_program := accounts.getD 8 0
            output_token_program := accounts.getD 9 0
            input_token_mint := accounts.getD 10 0
            output_token_mint := accounts.getD 11 0
            observation_state := accounts.getD 12 0 })
    | _, _ => none

/-- `parse_swap_base_output_instruction` (`raydium_cpmm/parser.rs`). -/
def parse_swap_base_output_instruction (data : List Nat) (accounts : List Pubkey)
    (metadata : EventMetadata) : Option DexEvent :=
  if data.length < 16 ∨ accounts.length < 13 then none
  else
    match readValue (read_u64_le data 0), readValue (read_u64_le data 8) with
    | some max_amount_in, some amount_out =>
        some (DexEvent.RaydiumCpmmSwapEvent
          { metadata := metadata
            amount_in := 0
            minimum_amount_out := 0
            max_amount_in := max_amount_in
            amount_out := amount_out
            payer := accounts.getD 0 0
            authority := accounts.getD 1 0
            amm_config := accounts.getD 2 0
            pool_state := accounts.getD 3 0
            input_token_account := accounts.getD 4 0
            output_token_account := accounts.getD 5 0
            input_vault := accounts.getD 6 0
            output_vault := accounts.getD 7 0
            input_token_program := accounts.getD 8 0
            output_token_program := accounts.getD 9 0
            input_token_mint := accounts.getD 10 0
            output_token_mint := accounts.getD 11 0
            observation_state := accounts.getD 12 0 })
    | _, _ => none

/-- `parse_deposit_instruction` (`raydium_cpmm/parser.rs`). -/
def parse_deposit_instruction (data : List Nat) (accounts : List Pubkey)
    (metadata : EventMetadata) : Option DexEvent :=
  if data.length < 24 ∨ accounts.length < 13 then none
  else
    match readValue (read_u64_le data 0), readValue (read_u64_le data 8),
        readValue (read_u64_le data 16) with
    | some lp_token_amount, some maximum_token0_amount, some maximum_token1_amount =>
        some (DexEvent.RaydiumCpmmDepositEvent
          { metadata := metadata
            lp_token_amount := lp_token_amount
            maximum_token0_amount := maximum_token0_amount
            maximum_token1_amount := maximum_token1_amount
            owner := accounts.getD 0 0
            authority := accounts.getD 1 0
            pool_state := accounts.getD 2 0
            owner_lp_token := accounts.getD 3 0
            token0_account := accounts.getD 4 0
            token1_account := accounts.getD 5 0
            token0_vault := accounts.getD 6 0
            token1_vault := accounts.getD 7 0
            token_program := accounts.getD 8 0
            token_program2022 := accounts.getD 9 0
            vault0_mint := accounts.getD 10 0
            vault1_mint := accounts.getD 11 0
            lp_mint := accounts.getD 12 0 })
    | _, _, _ => none

/-- `parse_withdraw_instruction` (`raydium_cpmm/parser.rs`). -/
def parse_withdraw_instruction (data : List Nat) (accounts : List Pubkey)
    (metadata : EventMetadata) : Option DexEvent :=
  if data.length < 24 ∨ accounts.length < 14 then none
  else
    match readValue (read_u64_le data 0), readValue (read_u64_le data 8),
        readValue (read_u64_le data 16) with
    | some lp_token_amount, some minimum_token0_amount, some minimum_token1_amount =>
        some (DexEvent.RaydiumCpmmWithdrawEvent
          { metadata := metadata
            lp_token_amount := lp_token_amount
            minimum_token0_amount := minimum_token0_amount
            minimum_token1_amount := minimum_token1_amount
            owner := accounts.getD 0 0
            authority := accounts.getD 1 0
            pool_state := accounts.getD 2 0
            owner_lp_token := accounts.getD 3 0
            token0_account := accounts.getD 4 0
            token1_account := accounts.getD 5 0
            token0_vault := accounts.getD 6 0
            token1_vault := accounts.getD 7 0
            token_program := accounts.getD 8 0
            token_program2022 := accounts.getD 9 0
            vault0_mint := accounts.getD 10 0
            vault1_mint := accounts.getD 11 0
            lp_mint := accounts.getD 12 0
            memo_program := accounts.getD 13 0 })
    | _, _, _ => none

/-- `parse_initialize_instruction` (source name) from
`raydium_cpmm/parser.rs`, named `parse_init_pool_instruction` here. -/
def parse_init_pool_instruction (data : List Nat) (accounts : List Pubkey)
    (metadata : EventMetadata) : Option DexEvent :=
  if data.length < 24 ∨ accounts.length < 20 then none
  else
    match readValue (read_u64_le data 0), readValue (read_u64_le data 8),
        readValue (read_u64_le data 16) with
    | some init_amount0, some init_amount1, some open_time =>
        some (DexEvent.RaydiumCpmmInitEvent
          { metadata := metadata
            init_amount0 := init_amount0
            init_amount1 := init_amount1
            open_time := open_time
            creator := accounts.getD 0 0
            amm_config := accounts.getD 1 0
            authority := accounts.getD 2 0
            pool_state := accounts.getD 3 0
            token0_mint := accounts.getD 4 0
            token1_mint := accounts.getD 5 0
            lp_mint := accounts.getD 6 0
            creator_token0 := accounts.getD 7 0
            creator_token1 := accounts.getD 8 0
            creator_lp_token := accounts.getD 9 0
            token0_vault := accounts.getD 10 0
            token1_vault := accounts.getD 11 0
            create_pool_fee := accounts.getD 12 0
            observation_state := accounts.getD 13 0
            token_program := accounts.getD 14 0
            token0_program := accounts.getD 15 0
            token1_program := accounts.getD 16 0
            associated_token_program := accounts.getD 17 0
            system_program := accounts.getD 18 0
            rent := accounts.getD 19 0 })
    | _, _, _ => none

/-- Modelled from the spec: `parse_raydium_cpmm_instruction_data` — the
generic table-driven entry of the CPMM module (the generic machinery is not
under `src/`; spec §4.E–F: find the `CONFIGS` row whose 8-byte discriminator
equals the input byte-for-byte, set `metadata.event_type` from the row, and
invoke its `parser_fn`).  The rows are the five of
`raydium_cpmm/parser.rs::CONFIGS`. -/
def parse_raydium_cpmm_instruction_data (disc : List Nat) (data : List Nat)
    (accounts : List Pubkey) (metadata : EventMetadata) : Option DexEvent :=
  if disc = SWAP_BASE_IN then
    parse_swap_base_input_instruction data accounts
      { metadata with event_type := EventType.RaydiumCpmmSwapBaseInput }
  else if disc = SWAP_BASE_OUT then
    parse_swap_base_output_instruction data accounts
      { metadata with event_type := EventType.RaydiumCpmmSwapBaseOutput }
  else if disc = DEPOSIT then
    parse_deposit_instruction data accounts
      { metadata with event_type := EventType.RaydiumCpmmDeposit }
  else if disc = INIT_POOL_DISC then
    parse_init_pool_instruction data accounts
      { metadata with event_type := EventType.RaydiumCpmmInitPool }
  else if disc = WITHDRAW then
    parse_withdraw_instruction data accounts
      { metadata with event_type := EventType.RaydiumCpmmWithdraw }
  else none

/-- Modelled from the spec: the per-signature dev registry (spec §3, §4.H;
`core/global_state.rs` is not under `src/`): two disjoint maps from the
64-byte signature to a set of addresses, one for PumpFun and one for Bonk,
modelled as association lists. -/
structure DevRegistry where
  pumpfun : List (Nat × Pubkey)
  bonk : List (Nat × Pubkey)
deriving DecidableEq, Repr

/-- The empty dev registry. -/
def emptyReg : DevRegistry := ⟨[], []⟩

/-- Modelled from the spec: `add_dev_address(sig, addr)` inserts into the
PumpFun map. -/
def add_dev_address (reg : DevRegistry) (sig : Nat) (addr : Pubkey) : DevRegistry :=
  { reg with pumpfun := (sig, addr) :: reg.pumpfun }

/-- Modelled from the spec: `is_dev_address_in_signature(sig, addr)` queries
the PumpFun map. -/
def is_dev_address_in_signature (reg : DevRegistry) (sig : Nat) (addr : Pubkey) : Bool :=
  reg.pumpfun.contains (sig, addr)

/-- Modelled from the spec: `add_bonk_dev_address(sig, addr)`. -/
def add_bonk_dev_address (reg : DevRegistry) (sig : Nat) (addr : Pubkey) : DevRegistry :=
  { reg with bonk := (sig, addr) :: reg.bonk }

/-- Modelled from the spec: `is_bonk_dev_address_in_signature(sig, addr)`. -/
def is_bonk_dev_address_in_signature (reg : DevRegistry) (sig : Nat) (addr : Pubkey) : Bool :=
  reg.bonk.contains (sig, addr)

/-- `EventParser::process_event` (`event_parser.rs`): the event
post-processor, with the process-wide dev registry made an explicit
argument (state-passing).  Returns the updated registry and the
(possibly annotated) event. -/
def process_event (reg : DevRegistry) (bot_wallet : Option Pubkey) (event : DexEvent) :
    DevRegistry × DexEvent :=
  let signature := event.metadata.signature
  match event with
  | DexEvent.PumpFunCreateTokenEvent token_info =>
      let reg1 := add_dev_address reg signature token_info.user
      let reg2 :=
        if token_info.creator ≠ 0 ∧ token_info.creator ≠ token_info.user then
          add_dev_address reg1 signature token_info.creator
        else reg1
      (reg2, DexEvent.PumpFunCreateTokenEvent token_info)
  | DexEvent.PumpFunCreateV2TokenEvent token_info =>
      let reg1 := add_dev_address reg signature token_info.user
      let reg2 :=
        if token_info.creator ≠ 0 ∧ token_info.creator ≠ token_info.user then
          add_dev_address reg1 signature token_info.creator
        else reg1
      (reg2, DexEvent.PumpFunCreateV2TokenEvent token_info)
  | DexEvent.PumpFunTradeEvent trade_info =>
      let trade1 :=
        { trade_info with
          is_dev_create_token_trade :=
            is_dev_address_in_signature reg signature trade_info.user ||
            is_dev_address_in_signature reg signature trade_info.creator
          is_bot := some trade_info.user == bot_wallet }
      let trade2 :=
        { trade1 with
          metadata :=
            { trade1.metadata with
              swap_data := trade1.metadata.swap_data.map (fun sd =>
                { sd with
                  from_amount :=
                    if trade_info.is_buy then trade_info.sol_amount
                    else trade_info.token_amount
                  to_amount :=
                    if trade_info.is_buy then trade_info.token_amount
                    else trade_info.sol_amount }) } }
      (reg, DexEvent.PumpFunTradeEvent trade2)
  | DexEvent.PumpSwapBuyEvent trade_info =>
      let trade1 :=
        { trade_info with
          metadata :=
            { trade_info.metadata with
              swap_data := trade_info.metadata.swap_data.map (fun sd =>
                { sd with
                  from_amount := trade_info.user_quote_amount_in
                  to_amount := trade_info.base_amount_out }) } }
      (reg, DexEvent.PumpSwapBuyEvent trade1)
  | DexEvent.PumpSwapBuyExactQuoteInEvent trade_info =>
      let trade1 :=
        { trade_info with
          metadata :=
            { trade_info.metadata with
              swap_data := trade_info.metadata.swap_data.map (fun sd =>
                { sd with
                  from_amount := trade_info.user_quote_amount_in
                  to_amount := trade_info.base_amount_out }) } }
      (reg, DexEvent.PumpSwapBuyExactQuoteInEvent trade1)
  | DexEvent.PumpSwapSellEvent trade_info =>
      let trade1 :=
        { trade_info with
          metadata :=
            { trade_info.metadata with
              swap_data := trade_info.metadata.swap_data.map (fun sd =>
                { sd with
                  from_amount := trade_info.base_amount_in
                  to_amount := trade_info.user_quote_amount_out }) } }
      (reg, DexEvent.PumpSwapSellEvent trade1)
  | DexEvent.BonkPoolCreateEvent pool_info =>
      (add_bonk_dev_address reg signature pool_info.creator,
       DexEvent.BonkPoolCreateEvent pool_info)
  | DexEvent.BonkTradeEvent trade_info =>
      let trade1 :=
        { trade_info with
          is_dev_create_token_trade :=
            is_bonk_dev_address_in_signature reg signature trade_info.payer
          is_bot := some trade_info.payer == bot_wallet }
      (reg, DexEvent.BonkTradeEvent trade1)
  | e => (reg, e)

/-- A compiled instruction as seen by the walker
(`yellowstone_grpc_proto::prelude::CompiledInstruction`): a program-id
index, the account-index list and the raw payload bytes. -/
structure CompiledInstruction where
  program_id_index : Nat
  accounts : List Nat
  data : List Nat
deriving DecidableEq, Repr

/-- One inner (CPI) instruction of a gRPC inner-instruction group. -/
structure InnerInstructionGrpc where
  program_id_index : Nat
  accounts : List Nat
  data : List Nat
deriving DecidableEq, Repr

/-- A gRPC inner-instruction group: the outer-instruction index it belongs
to and its instructions in order. -/
structure InnerInstructionsGrpc where
  index : Nat
  instructions : List InnerInstructionGrpc
deriving DecidableEq, Repr

/-- The per-protocol decoding functions the dispatcher and walker call into.
The CPMM module's instruction entry is in `src/`; the other six protocol
modules, the inner (CPI-log) tables, the compute-budget decoder, the merge
operation and the SPL-token swap-data extraction are not, so the walker is
parameterised over them: theorems about the walker quantify over this
record, and concrete instantiations (below) stand in for the missing
modules. -/
structure ProtocolParsers where
  instrParse : Protocol → List Nat → List Nat → List Pubkey → EventMetadata → Option DexEvent
  innerParse : Protocol → List Nat → List Nat → EventMetadata → Option DexEvent
  accountParse : Protocol → List Nat → AccountPretty → EventMetadata → Option DexEvent
  cuParse : List Nat → EventMetadata → Option DexEvent
  mergeFn : DexEvent → DexEvent → DexEvent
  swapGrpc : DexEvent → InnerInstructionsGrpc → Int → List Pubkey → Option SwapData

/-- `EventDispatcher::dispatch_instruction` (`dispatcher.rs`): stamp
`metadata.protocol` from the `Protocol` argument, then invoke the
protocol's instruction decoder. -/
def dispatch_instruction (P : ProtocolParsers) (protocol : Protocol)
    (instruction_discriminator : List Nat) (instruction_data : List Nat)
    (accounts : List Pubkey) (metadata : EventMetadata) : Option DexEvent :=
  P.instrParse protocol instruction_discriminator instruction_data accounts
    { metadata with protocol := protocolTypeOf protocol }

/-- `EventDispatcher::dispatch_inner_instruction` (`dispatcher.rs`): stamp
`metadata.protocol`, then invoke the protocol's inner-instruction decoder. -/
def dispatch_inner_instruction (P : ProtocolParsers) (protocol : Protocol)
    (inner_instruction_discriminator : List Nat) (inner_instruction_data : List Nat)
    (metadata : EventMetadata) : Option DexEvent :=
  P.innerParse protocol inner_instruction_discriminator inner_instruction_data
    { metadata with protocol := protocolTypeOf protocol }

/-- `EventDispatcher::dispatch_account` (`dispatcher.rs`): stamp
`metadata.protocol`, then invoke the protocol's account decoder. -/
def dispatch_account (P : ProtocolParsers) (protocol : Protocol)
    (discriminator : List Nat) (account : AccountPretty)
    (metadata : EventMetadata) : Option DexEvent :=
  P.accountParse protocol discriminator account
    { metadata with protocol := protocolTypeOf protocol }

/-- `EventDispatcher::dispatch_compute_budget_instruction`
(`dispatcher.rs`): delegates to the common compute-budget decoder (not
under `src/`, hence a parameter). -/
def dispatch_compute_budget_instruction (P : ProtocolParsers)
    (instruction_data : List Nat) (metadata : EventMetadata) : Option DexEvent :=
  P.cuParse instruction_data metadata

/-- A `ProtocolParsers` instantiation whose missing modules decode nothing:
used as a concrete stand-in when a theorem needs an explicit record. -/
def trivialParsers : ProtocolParsers where
  instrParse := fun _ _ _ _ _ => none
  innerParse := fun _ _ _ _ => none
  accountParse := fun _ _ _ _ => none
  cuParse := fun _ _ => none
  mergeFn := fun outer _ => outer
  swapGrpc := fun _ _ _ _ => none

/-- Modelled from the spec: the `ProtocolParsers` record matching the
available source — the Raydium CPMM instruction entry is the concrete
decoder from `raydium_cpmm/parser.rs`; the six protocol modules that are
not under `src/` decode nothing here. -/
def realParsers : ProtocolParsers :=
  { trivialParsers with
    instrParse := fun protocol disc data accounts metadata =>
      match protocol with
      | Protocol.RaydiumCpmm =>
          parse_raydium_cpmm_instruction_data disc data accounts metadata
      | _ => none }

/-- The account array handed to the protocol decoder
(`event_parser.rs`, the `account_pubkeys` construction): look each listed
index up in the transaction account-key array, silently dropping indices
that are out of range (`filter_map`). -/
def handedAccounts (instruction : CompiledInstruction) (accounts : List Pubkey) :
    List Pubkey :=
  instruction.accounts.filterMap (fun idx => accounts.get? idx)

/-- The metadata the walker builds for an instruction
(`EventMetadata::new` call in `event_parser.rs`): block time defaults to
zero, `block_time_ms = seconds * 1000 + nanos / 1_000_000`, protocol and
event type left at their defaults for the dispatcher. -/
def walkerMetadata (signature : Nat) (slot : Nat) (block_time : Option Timestamp)
    (program_id : Pubkey) (outer_index : Int) (inner_index : Option Int)
    (recv_us : Int) (transaction_index : Option Nat) : EventMetadata :=
  let timestamp := block_time.getD ⟨0, 0⟩
  EventMetadata.new signature slot timestamp.seconds
    (timestamp.seconds * 1000 + timestamp.nanos / 1000000)
    default default program_id outer_index inner_index recv_us transaction_index

/-- `EventParser::should_handle` (`event_parser.rs`): a program id is
handled when it maps to a protocol contained in `protocols`, or
unconditionally when it is the compute-budget program id (the event-type
filter argument of the source is unused there and omitted). -/
def should_handle (protocols : List Protocol) (program_id : Pubkey) : Bool :=
  match match_protocol_by_program_id program_id with
  | some protocol => protocols.contains protocol
  | none => is_compute_budget_program program_id

/-- The discriminator length selected by the walker (`event_parser.rs`):
1 byte for the Raydium AMM V4 program, 8 bytes otherwise. -/
def discLenFor (program_id : Pubkey) : Nat :=
  if program_id = RAYDIUM_AMM_V4_PROGRAM_ID then 1 else 8

/-- The inner-instruction scan of the walker (`event_parser.rs`): iterate
the group's instructions with their positions, skipping positions at or
below `current_inner_idx` and payloads shorter than the 16-byte inner
discriminator; return the first inner event a dispatch recognises. -/
def findInnerEventAux (P : ProtocolParsers) (protocol : Protocol)
    (metadata : EventMetadata) (current_inner_idx : Int) :
    Nat → List InnerInstructionGrpc → Option DexEvent
  | _, [] => none
  | idx, inner :: rest =>
    if (idx : Int) ≤ current_inner_idx then
      findInnerEventAux P protocol metadata current_inner_idx (idx + 1) rest
    else if inner.data.length < 16 then
      findInnerEventAux P protocol metadata current_inner_idx (idx + 1) rest
    else
      match dispatch_inner_instruction P protocol (inner.data.take 16)
          (inner.data.drop 16) metadata with
      | some e => some e
      | none => findInnerEventAux P protocol metadata current_inner_idx (idx + 1) rest

/-- The inner-event lookup over a whole group, starting at position 0. -/
def findInnerEvent (P : ProtocolParsers) (protocol : Protocol)
    (metadata : EventMetadata) (current_inner_idx : Int)
    (group : InnerInstructionsGrpc) : Option DexEvent :=
  findInnerEventAux P protocol metadata current_inner_idx 0 group.instructions

/-- The walker's inner-event result (`inner_instruction_event` in
`event_parser.rs`): `None` when the instruction has no inner-instruction
group, otherwise the first inner event the scan over the group
recognises. -/
def scanInnerEvent (P : ProtocolParsers) (protocol : Protocol)
    (metadata : EventMetadata) (current_inner_idx : Int)
    (inner_instructions : Option InnerInstructionsGrpc) : Option DexEvent :=
  match inner_instructions with
  | none => none
  | some group => findInnerEvent P protocol metadata current_inner_idx group

/-- Ghost record of one `dispatch_instruction` invocation made by the
walker: which instruction position it came from, the account-index list of
the instruction, and the account array handed to the decoder. -/
structure DispatchCall where
  inner_index : Option Int
  account_indices : List Nat
  handed_accounts : List Pubkey
deriving DecidableEq, Repr

/-- Result of walking one instruction: the emitted events (in order), the
updated dev registry, and the trace of decoder invocations. -/
structure WalkStepResult where
  events : List DexEvent
  reg : DevRegistry
  calls : List DispatchCall
deriving DecidableEq, Repr

/-- `EventParser::parse_events_from_grpc_instruction` (`event_parser.rs`):
bounds-check the program-id index, apply `should_handle`, select the
discriminator length and reject short payloads, build the metadata, handle
compute-budget instructions directly, otherwise dispatch to the protocol
decoder, run the inner-event scan and swap-data extraction, apply the
PumpFun MIGRATE special rule, merge, stamp `handle_us` and post-process.
`now_us` is the current reading of the process clock; the registry is
passed explicitly. -/
def parse_events_from_grpc_instruction (P : ProtocolParsers)
    (protocols : List Protocol) (instruction : CompiledInstruction)
    (accounts : List Pubkey) (signature : Nat) (slot : Nat)
    (block_time : Option Timestamp) (recv_us : Int) (outer_index : Int)
    (inner_index : Option Int) (bot_wallet : Option Pubkey)
    (transaction_index : Option Nat)
    (inner_instructions : Option InnerInstructionsGrpc)
    (reg : DevRegistry) (now_us : Int) : WalkStepResult :=
  if accounts.length ≤ instruction.program_id_index then ⟨[], reg, []⟩
  else
    let program_id := accounts.getD instruction.program_id_index 0
    if ¬ should_handle protocols program_id then ⟨[], reg, []⟩
    else
      let is_cu_program := is_compute_budget_program program_id
      let disc_len := discLenFor program_id
      if ¬ is_cu_program ∧ instruction.data.length < disc_len then ⟨[], reg, []⟩
      else
        let metadata := walkerMetadata signature slot block_time program_id
          outer_index inner_index recv_us transaction_index
        if is_cu_program then
          match dispatch_compute_budget_instruction P instruction.data metadata with
          | some e => ⟨[e], reg, []⟩
          | none => ⟨[], reg, []⟩
        else
          match match_protocol_by_program_id program_id with
          | none => ⟨[], reg, []⟩
          | some protocol =>
            let instruction_discriminator := instruction.data.take disc_len
            let instruction_data := instruction.data.drop disc_len
            let account_pubkeys := handedAccounts instruction accounts
            let call : DispatchCall := ⟨inner_index, instruction.accounts, account_pubkeys⟩
            match dispatch_instruction P protocol instruction_discriminator
                instruction_data account_pubkeys metadata with
            | none => ⟨[], reg, [call]⟩
            | some event0 =>
              let current_inner_idx : Int := inner_index.getD (-1)
              let inner_instruction_event : Option DexEvent :=
                scanInnerEvent P protocol metadata current_inner_idx inner_instructions
              let swap_data_result : Option SwapData :=
                match inner_instructions with
                | none => none
                | some group =>
                  if event0.metadata.swap_data = none then
                    P.swapGrpc event0 group current_inner_idx accounts
                  else none
              let event1 :=
                match swap_data_result with
                | some sd => event0.setSwapData sd
                | none => event0
              if protocol = Protocol.PumpFun ∧
                  instruction_discriminator = PUMPFUN_MIGRATE_IX ∧
                  inner_instruction_event = none then
                ⟨[], reg, [call]⟩
              else
                let event2 :=
                  match inner_instruction_event with
                  | some ie => P.mergeFn event1 ie
                  | none => event1
                let event3 := event2.setHandleUs (now_us - recv_us)
                let processed := process_event reg bot_wallet event3
                ⟨[processed.2], processed.1, [call]⟩

/-- The walker environment that stays constant over one transaction. -/
structure WalkCtx where
  P : ProtocolParsers
  protocols : List Protocol
  signature : Nat
  slot : Nat
  block_time : Option Timestamp
  recv_us : Int
  bot_wallet : Option Pubkey
  transaction_index : Option Nat
  now_us : Int

/-- The walker's resizing of the account-key array before an outer
instruction (`event_parser.rs`): when the instruction's largest account
index is not below the current length, extend with zero keys up to that
index. -/
def padAccounts (accounts : List Pubkey) (idxs : List Nat) : List Pubkey :=
  let max_idx := idxs.foldl max 0
  if accounts.length ≤ max_idx then
    accounts ++ List.replicate (max_idx + 1 - accounts.length) 0
  else accounts

/-- The inner loop of
`EventParser::parse_instruction_events_from_grpc_transaction`: walk the
instructions of group `group` at positions `inner_pos, inner_pos+1, …`,
each against the (already padded) account array, threading the registry. -/
def walkInnerLoop (ctx : WalkCtx) (group : InnerInstructionsGrpc)
    (accounts : List Pubkey) :
    Nat → List InnerInstructionGrpc → DevRegistry → WalkStepResult
  | _, [], reg => ⟨[], reg, []⟩
  | inner_pos, inner :: rest, reg =>
    let instr : CompiledInstruction := ⟨inner.program_id_index, inner.accounts, inner.data⟩
    let r := parse_events_from_grpc_instruction ctx.P ctx.protocols instr accounts
      ctx.signature ctx.slot ctx.block_time ctx.recv_us (group.index : Int)
      (some (inner_pos : Int)) ctx.bot_wallet ctx.transaction_index (some group)
      reg ctx.now_us
    let rest_r := walkInnerLoop ctx group accounts (inner_pos + 1) rest r.reg
    ⟨r.events ++ rest_r.events, rest_r.reg, r.calls ++ rest_r.calls⟩

/-- Result of walking a whole transaction: the account array after all
padding, the events in emission order, the final registry and the decoder
invocation trace. -/
structure WalkResult where
  accounts : List Pubkey
  events : List DexEvent
  reg : DevRegistry
  calls : List DispatchCall

/-- The outer loop of
`EventParser::parse_instruction_events_from_grpc_transaction`
(`event_parser.rs`): for each outer instruction whose program-id index is
in range, find its inner group, pad the account array by the outer
instruction's largest index, parse the outer instruction when
`should_handle` passes, then immediately parse the group's inner
instructions; the padded account array carries over to later iterations. -/
def walkOuterLoop (ctx : WalkCtx) :
    Nat → List CompiledInstruction → List Pubkey → List InnerInstructionsGrpc →
    DevRegistry → WalkResult
  | _, [], accounts, _, reg => ⟨accounts, [], reg, []⟩
  | index, instruction :: rest, accounts, inner_groups, reg =>
    if instruction.program_id_index < accounts.length then
      let program_id := accounts.getD instruction.program_id_index 0
      let group := inner_groups.find? (fun g => g.index == index)
      let accounts2 := padAccounts accounts instruction.accounts
      let outer_r :=
        if should_handle ctx.protocols program_id then
          parse_events_from_grpc_instruction ctx.P ctx.protocols instruction accounts2
            ctx.signature ctx.slot ctx.block_time ctx.recv_us (index : Int) none
            ctx.bot_wallet ctx.transaction_index group reg ctx.now_us
        else ⟨[], reg, []⟩
      let inner_r :=
        match group with
        | some g => walkInnerLoop ctx g accounts2 0 g.instructions outer_r.reg
        | none => ⟨[], outer_r.reg, []⟩
      let rest_r := walkOuterLoop ctx (index + 1) rest accounts2 inner_groups inner_r.reg
      ⟨rest_r.accounts, outer_r.events ++ inner_r.events ++ rest_r.events, rest_r.reg,
       outer_r.calls ++ inner_r.calls ++ rest_r.calls⟩
    else
      walkOuterLoop ctx (index + 1) rest accounts inner_groups reg

/-- `EventParser::parse_instruction_events_from_grpc_transaction`
(`event_parser.rs`): early-exit when no account key is handled, otherwise
run the outer loop from index 0. -/
def parse_instruction_events_from_grpc_transaction (ctx : WalkCtx)
    (compiled_instructions : List CompiledInstruction) (accounts : List Pubkey)
    (inner_instructions : List InnerInstructionsGrpc) (reg : DevRegistry) :
    WalkResult :=
  if accounts.any (fun account => should_handle ctx.protocols account) then
    walkOuterLoop ctx 0 compiled_instructions accounts inner_instructions reg
  else ⟨accounts, [], reg, []⟩

/-- A stand-in `ProtocolParsers` whose PumpFun instruction decoder always
succeeds (with a migrate event carrying the stamped metadata): used to
exercise the walker's PumpFun paths on concrete inputs. -/
def pumpfunStubParsers : ProtocolParsers :=
  { trivialParsers with
    instrParse := fun protocol _ _ _ metadata =>
      match protocol with
      | Protocol.PumpFun => some (DexEvent.PumpFunMigrateEvent ⟨metadata⟩)
      | _ => none }

-- ===== THEOREMS =====

/-- When `offset + width` does not overflow `usize`, each reader returns
normally: `None` exactly when the buffer is too short, and otherwise the
little-endian value of the slice. -/
theorem readLeCore_no_overflow (width data offset) (h : offset + width < USIZE) :
    readLeCore width data offset =
      ReadResult.value
        (if data.length < offset + width then none
         else some (leBytesVal ((data.drop offset).take width))) := by
  unfold readLeCore
  simp only [Nat.mod_eq_of_lt h]
  by_cases hlen : data.length < offset + width
  · simp [hlen]
  · simp [hlen, Nat.le_add_right]

/-- C1 (amended).  For every byte buffer and every offset such that
`offset + sizeof(T)` does not overflow `usize`, `read_T_le(buf, offset)`
returns (without panicking) `None` if and only if
`offset + sizeof(T) > len(buf)`, and otherwise `Some` of the little-endian
value reconstructed from `buf[offset..offset+sizeof(T)]`; this holds for
`read_u8_le`, `read_u16_le`, `read_u32_le`, `read_u64_le`, `read_u128_le`
and `read_i32_le` (the latter with the two's-complement reinterpretation).
At offsets where `offset + sizeof(T)` overflows `usize`, the reader can
panic instead (see the counterexample). -/
theorem C1_byte_readers_amended :
    (∀ data offset, offset + 1 < USIZE →
      read_u8_le data offset =
        ReadResult.value
          (if data.length < offset + 1 then none
           else some (leBytesVal ((data.drop offset).take 1)))) ∧
    (∀ data offset, offset + 2 < USIZE →
      read_u16_le data offset =
        ReadResult.value
          (if data.length < offset + 2 then none
           else some (leBytesVal ((data.drop offset).take 2)))) ∧
    (∀ data offset, offset + 4 < USIZE →
      read_u32_le data offset =
        ReadResult.value
          (if data.length < offset + 4 then none
           else some (leBytesVal ((data.drop offset).take 4)))) ∧
    (∀ data offset, offset + 8 < USIZE →
      read_u64_le data offset =
        ReadResult.value
          (if data.length < offset + 8 then none
           else some (leBytesVal ((data.drop offset).take 8)))) ∧
    (∀ data offset, offset + 16 < USIZE →
      read_u128_le data offset =
        ReadResult.value
          (if data.length < offset + 16 then none
           else some (leBytesVal ((data.drop offset).take 16)))) ∧
    (∀ data offset, offset + 4 < USIZE →
      read_i32_le data offset =
        ReadResult.value
          (if data.length < offset + 4 then none
           else some (toSigned32 (leBytesVal ((data.drop offset).take 4))))) := by
  refine ⟨?_, ?_, ?_, ?_, ?_, ?_⟩ <;> intro data offset h
  · exact readLeCore_no_overflow 1 data offset h
  · exact readLeCore_no_overflow 2 data offset h
  · exact readLeCore_no_overflow 4 data offset h
  · exact readLeCore_no_overflow 8 data offset h
  · exact readLeCore_no_overflow 16 data offset h
  · unfold read_i32_le
    rw [readLeCore_no_overflow 4 data offset h]
    by_cases hlen : data.length < offset + 4 <;> simp [hlen]

/-- Witness for C1: evaluating the amended statement at concrete inputs.
`read_u64_le [1,2,3,4,5,6,7,8] 0 = value (some 0x0807060504030201)` and
`read_u16_le [1,2,3] 2 = value none`. -/
theorem C1_byte_readers_witness :
    read_u64_le [1, 2, 3, 4, 5, 6, 7, 8] 0 = ReadResult.value (some 578437695752307201) ∧
    read_u16_le [1, 2, 3] 2 = ReadResult.value none := by
  constructor
  · have h := C1_byte_readers_amended.2.2.2.1 [1, 2, 3, 4, 5, 6, 7, 8] 0 (by decide)
    rw [h]; decide
  · have h := C1_byte_readers_amended.2.1 [1, 2, 3] 2 (by decide)
    rw [h]; decide

/-- Counterexample to C1 as stated: at `offset = 2^64 - 8` with an 8-byte
buffer, `offset + 8 > len(buf)` holds, so the claim requires `None`; the
code instead panics (the wrapped bounds check `len < 0` passes, and the
slice `data[2^64-8 .. 0]` has start after end). -/
theorem C1_byte_readers_counterexample :
    (USIZE - 8) + 8 > (List.replicate 8 0).length ∧
    read_u64_le (List.replicate 8 0) (USIZE - 8) = ReadResult.panicked := by
  constructor
  · decide
  · unfold read_u64_le readLeCore
    norm_num [USIZE]

/-- Reading the clock at two monotonic instants decomposes additively. -/
theorem now_micros_add (c : HighPerformanceClock) {m1 m2 : Nat}
    (hb : c.base_instant ≤ m1) (h : m1 ≤ m2) :
    c.now_micros m2 = c.now_micros m1 + ((m2 - m1 : Nat) : Int) := by
  unfold HighPerformanceClock.now_micros
  have hsplit : m2 - c.base_instant = (m1 - c.base_instant) + (m2 - m1) := by omega
  rw [hsplit]
  push_cast
  ring

/-- Without a recalibration in between, `now_micros` is monotone in the
monotonic reading. -/
theorem now_micros_mono (c : HighPerformanceClock) {m1 m2 : Nat}
    (hb : c.base_instant ≤ m1) (h : m1 ≤ m2) :
    c.now_micros m1 ≤ c.now_micros m2 := by
  rw [now_micros_add c hb h]
  have : (0 : Int) ≤ ((m2 - m1 : Nat) : Int) := Int.natCast_nonneg _
  omega

/-- A recalibration whose observed drift is at least −1000 µs never moves
subsequent readings backwards, and leaves the base instant below the current
monotonic reading. -/
theorem recalibrate_now_ge (c : HighPerformanceClock) {mono : Nat} {wall : Int}
    (hb : c.base_instant ≤ mono)
    (hdrift : (-1000 : Int) ≤ wall - c.now_micros mono) :
    ∀ m2, mono ≤ m2 →
      c.now_micros m2 ≤ (c.recalibrate mono wall).now_micros m2 ∧
      (c.recalibrate mono wall).base_instant ≤ m2 := by
  intro m2 hm
  unfold HighPerformanceClock.recalibrate
  by_cases hreset : 1000 < (wall - c.now_micros mono).natAbs
  · have hpos : (1000 : Int) < wall - c.now_micros mono := by
      rcases Int.natAbs_eq (wall - c.now_micros mono) with heq | heq
      · omega
      · omega
    rw [if_pos hreset]
    show c.now_micros m2 ≤ wall + ((m2 - mono : Nat) : Int) ∧ mono ≤ m2
    unfold HighPerformanceClock.now_micros at hpos ⊢
    exact ⟨by omega, hm⟩
  · rw [if_neg hreset]
    show c.now_micros m2 ≤
        c.base_timestamp_us + ((m2 - c.base_instant : Nat) : Int) ∧ c.base_instant ≤ m2
    unfold HighPerformanceClock.now_micros
    exact ⟨le_refl _, le_trans hb hm⟩

/-- Along any good sequence of operations, the call outputs form a
non-decreasing chain and are bounded below by the reading at the start. -/
theorem clockOutputs_chain (ops : List ClockOp) :
    ∀ (c : HighPerformanceClock) (prev : Nat), c.base_instant ≤ prev →
      goodOps c prev ops = true →
      List.Chain' (· ≤ ·) (clockOutputs c ops) ∧
      (∀ o ∈ clockOutputs c ops, c.now_micros prev ≤ o) := by
  induction ops with
  | nil =>
    intro c prev _ _
    exact ⟨List.chain'_nil, by intro o ho; cases ho⟩
  | cons op rest ih =>
    intro c prev hb hg
    cases op with
    | call mono =>
      unfold goodOps at hg
      rw [Bool.and_eq_true, decide_eq_true_eq] at hg
      obtain ⟨hprev, hrest⟩ := hg
      have hb2 : c.base_instant ≤ mono := le_trans hb hprev
      obtain ⟨hchain, hbound⟩ := ih c mono hb2 hrest
      refine ⟨?_, ?_⟩
      · unfold clockOutputs
        rw [List.chain'_cons']
        refine ⟨?_, hchain⟩
        intro b hbmem
        exact hbound b (List.mem_of_mem_head? hbmem)
      · unfold clockOutputs
        intro o ho
        rcases List.mem_cons.mp ho with h | h
        · subst h
          exact now_micros_mono c hb hprev
        · exact le_trans (now_micros_mono c hb hprev) (hbound o h)
    | recal mono wall =>
      unfold goodOps at hg
      rw [Bool.and_eq_true, Bool.and_eq_true, decide_eq_true_eq, decide_eq_true_eq] at hg
      obtain ⟨⟨hprev, hdrift⟩, hrest⟩ := hg
      have hb2 : c.base_instant ≤ mono := le_trans hb hprev
      obtain ⟨hge, hbase⟩ := recalibrate_now_ge c hb2 hdrift mono (le_refl mono)
      obtain ⟨hchain, hbound⟩ := ih (c.recalibrate mono wall) mono hbase hrest
      refine ⟨hchain, ?_⟩
      unfold clockOutputs
      intro o ho
      have h1 : c.now_micros prev ≤ c.now_micros mono := now_micros_mono c hb hprev
      exact le_trans h1 (le_trans hge (hbound o ho))

/-- C9 (amended).  For a single clock instance, successive `now_micros`
calls return non-decreasing values provided every recalibration in between
observes a drift of at least −1000 µs (in particular when the wall clock
never jumps backwards past the monotonic projection).  Recalibrations
reset the base pair only when the absolute drift exceeds 1 ms; a
recalibration observing drift below −1000 µs resets the base pair to an
earlier wall reading, and the next call can return a smaller value than a
previous one (see the counterexample). -/
theorem C9_clock_monotonic_amended (c : HighPerformanceClock) (ops : List ClockOp)
    (h : goodOps c c.base_instant ops = true) :
    List.Chain' (· ≤ ·) (clockOutputs c ops) :=
  (clockOutputs_chain ops c c.base_instant (le_refl _) h).1

/-- Witness for C9: a concrete good trace with a forward recalibration has
non-decreasing outputs. -/
theorem C9_clock_monotonic_witness :
    goodOps ⟨0, 0, 0, 300⟩ 0 [ClockOp.call 10, ClockOp.recal 20 2000, ClockOp.call 30] = true ∧
    List.Chain' (· ≤ ·)
      (clockOutputs ⟨0, 0, 0, 300⟩ [ClockOp.call 10, ClockOp.recal 20 2000, ClockOp.call 30]) :=
  ⟨by decide,
   C9_clock_monotonic_amended ⟨0, 0, 0, 300⟩
     [ClockOp.call 10, ClockOp.recal 20 2000, ClockOp.call 30] (by decide)⟩

/-- Counterexample to C9 as stated: starting from base pair (0, 0), a call at
monotonic reading 5000 returns 5000; a recalibration at monotonic 6000 with
wall reading 3000 observes drift −3000 µs (absolute value exceeds 1 ms) and
resets the base pair; the next call at monotonic 6000 returns 3000 < 5000,
so the outputs are not non-decreasing even though the monotonic readings
never decrease. -/
theorem C9_clock_monotonic_counterexample :
    clockOutputs ⟨0, 0, 0, 300⟩
        [ClockOp.call 5000, ClockOp.recal 6000 3000, ClockOp.call 6000] = [5000, 3000] ∧
    ¬ List.Chain' (· ≤ ·) ([5000, 3000] : List Int) := by
  constructor
  · decide
  · intro h
    have h2 := (List.chain'_cons.mp h).1
    omega

/-- Popping on acquire never lengthens the queue. -/
theorem poolAcquire_length_le {α : Type} (d : α) (q : List α) :
    (poolAcquire d q).2.length ≤ q.length := by
  cases q <;> simp [poolAcquire]

/-- The queue-length invariant: starting at or below `maxSize`, the queue
never exceeds `maxSize` after any sequence of acquires and handle drops. -/
theorem runPoolOps_length_le {α : Type} (d : α) (clear : α → α) (maxSize : Nat)
    (ops : List (PoolOp α)) :
    ∀ q : List α, q.length ≤ maxSize →
      (runPoolOps d clear maxSize q ops).length ≤ maxSize := by
  induction ops with
  | nil => intro q hq; exact hq
  | cons op rest ih =>
    intro q hq
    cases op with
    | acquire =>
      exact ih _ (le_trans (poolAcquire_length_le d q) hq)
    | release r =>
      apply ih
      unfold poolRelease
      by_cases h : q.length < maxSize
      · simp only [h, if_true, List.length_append, List.length_cons, List.length_nil]
        omega
      · simp only [h, if_false]
        exact hq

/-- C8 (amended).  For every pooled record handle, dropping the handle
pushes the record to the back of the queue if the queue holds fewer than
`max_size` entries and frees it otherwise, so after any sequence of acquires
and drops the queue length never exceeds `max_size` (given the initial
prefill does not).  Before being pushed the record is, however, only
partially cleared, not reset to its type's `Default` value: the account
handle clears `data`/`signature`/`pubkey`/`owner` but keeps `slot` (and
`lamports`, `executable`, `rent_epoch`, `recv_us`); the transaction handle
clears `block_hash`/`block_time`/`signature` but keeps `slot` and the gRPC
payload; the block-meta handle clears `block_hash`/`block_time` but keeps
`slot`; only the shred transaction-with-slot handle performs a full reset
to `Default`. -/
theorem C8_pool_release_amended :
    (∀ (α : Type) (d : α) (clear : α → α) (maxSize : Nat)
        (q : List α) (ops : List (PoolOp α)), q.length ≤ maxSize →
        (runPoolOps d clear maxSize q ops).length ≤ maxSize) ∧
    (∀ (α : Type) (clear : α → α) (maxSize : Nat) (q : List α) (r : α),
        q.length < maxSize → poolRelease clear maxSize q r = q ++ [clear r]) ∧
    (∀ (α : Type) (clear : α → α) (maxSize : Nat) (q : List α) (r : α),
        ¬ q.length < maxSize → poolRelease clear maxSize q r = q) ∧
    (∀ r : TransactionWithSlot, transactionWithSlotDropClear r = default) ∧
    (∀ r : AccountPretty,
        accountDropClear r =
          { r with data := [], signature := 0, pubkey := 0, owner := 0 }) ∧
    (∀ r : TransactionPretty,
        transactionDropClear r =
          { r with block_hash := [], block_time := none, signature := 0 }) ∧
    (∀ r : BlockMetaPretty,
        blockMetaDropClear r = { r with block_hash := [], block_time := none }) := by
  refine ⟨?_, ?_, ?_, ?_, ?_, ?_, ?_⟩
  · intro α d clear maxSize q ops hq
    exact runPoolOps_length_le d clear maxSize ops q hq
  · intro α clear maxSize q r h
    simp [poolRelease, h]
  · intro α clear maxSize q r h
    simp [poolRelease, h]
  · intro r
    rfl
  · intro r
    rfl
  · intro r
    rfl
  · intro r
    rfl

/-- Witness for C8 (amended): three drops and an acquire against a pool of
max size 2, starting empty, leave at most 2 queued entries. -/
theorem C8_pool_release_witness :
    (runPoolOps (default : AccountPretty) accountDropClear 2 []
        [PoolOp.release default, PoolOp.release default,
         PoolOp.release default, PoolOp.acquire]).length ≤ 2 :=
  C8_pool_release_amended.1 AccountPretty default accountDropClear 2 []
    [PoolOp.release default, PoolOp.release default,
     PoolOp.release default, PoolOp.acquire] (by decide)

/-- Counterexample to C8 as stated: dropping an account handle whose record
has `slot = 5` into a non-full pool queues a record that still has
`slot = 5`, which is not the `Default` value — the drop clears only
`data`, `signature`, `pubkey` and `owner`. -/
theorem C8_pool_release_counterexample :
    poolRelease accountDropClear 20000 [] ⟨5, 0, 0, false, 0, 0, 0, [], 0⟩ =
      [⟨5, 0, 0, false, 0, 0, 0, [], 0⟩] ∧
    (⟨5, 0, 0, false, 0, 0, 0, [], 0⟩ : AccountPretty) ≠ (default : AccountPretty) := by
  constructor
  · rfl
  · decide

/-- The in-bounds `read_u64_le` at offset 0 yields the first 8 bytes. -/
theorem read_u64_le_at0 (data : List Nat) (h : 8 ≤ data.length) :
    read_u64_le data 0 = ReadResult.value (some (leBytesVal (data.take 8))) := by
  unfold read_u64_le
  rw [readLeCore_no_overflow 8 data 0 (by norm_num [USIZE])]
  rw [if_neg (by omega)]
  rw [List.drop_zero]

/-- The in-bounds `read_u64_le` at offset 8 yields bytes 8–15. -/
theorem read_u64_le_at8 (data : List Nat) (h : 16 ≤ data.length) :
    read_u64_le data 8 = ReadResult.value (some (leBytesVal ((data.drop 8).take 8))) := by
  unfold read_u64_le
  rw [readLeCore_no_overflow 8 data 8 (by norm_num [USIZE])]
  rw [if_neg (by omega)]

/-- C7.  For a Raydium CPMM SwapBaseIn instruction: with a
post-discriminator payload of at least 16 bytes and at least 13 accounts,
the parser returns a `RaydiumCpmmSwapEvent` whose `amount_in` is the
little-endian u64 at payload offset 0, whose `minimum_amount_out` is the
little-endian u64 at offset 8, and whose account fields are the account
array entries at positions 0–12 in order; with a shorter payload or fewer
accounts it returns `None`. -/
theorem C7_cpmm_swap_base_in (data : List Nat) (accounts : List Pubkey)
    (metadata : EventMetadata) :
    (16 ≤ data.length → 13 ≤ accounts.length →
      parse_swap_base_input_instruction data accounts metadata =
        some (DexEvent.RaydiumCpmmSwapEvent
          { metadata := metadata
            amount_in := leBytesVal (data.take 8)
            minimum_amount_out := leBytesVal ((data.drop 8).take 8)
            max_amount_in := 0
            amount_out := 0
            payer := accounts.getD 0 0
            authority := accounts.getD 1 0
            amm_config := accounts.getD 2 0
            pool_state := accounts.getD 3 0
            input_token_account := accounts.getD 4 0
            output_token_account := accounts.getD 5 0
            input_vault := accounts.getD 6 0
            output_vault := accounts.getD 7 0
            input_token_program := accounts.getD 8 0
            output_token_program := accounts.getD 9 0
            input_token_mint := accounts.getD 10 0
            output_token_mint := accounts.getD 11 0
            observation_state := accounts.getD 12 0 })) ∧
    (data.length < 16 ∨ accounts.length < 13 →
      parse_swap_base_input_instruction data accounts metadata = none) := by
  constructor
  · intro hd ha
    unfold parse_swap_base_input_instruction
    rw [if_neg (by omega)]
    rw [read_u64_le_at0 data (by omega), read_u64_le_at8 data hd]
    rfl
  · intro h
    unfold parse_swap_base_input_instruction
    rw [if_pos h]

/-- Witness for C7: the spec's concrete scenario — payload
`u64(1_000_000) ++ u64(990_000)` with 13 accounts `1..13` decodes to the
expected event. -/
theorem C7_cpmm_swap_base_in_witness :
    parse_swap_base_input_instruction
        [64, 66, 15, 0, 0, 0, 0, 0, 48, 27, 15, 0, 0, 0, 0, 0]
        [1, 2, 3, 4, 5, 6, 7, 8, 9, 10, 11, 12, 13]
        (EventMetadata.new 0 0 0 0 default default 0 0 none 0 none) =
      some (DexEvent.RaydiumCpmmSwapEvent
        { metadata := EventMetadata.new 0 0 0 0 default default 0 0 none 0 none
          amount_in := 1000000
          minimum_amount_out := 990000
          max_amount_in := 0
          amount_out := 0
          payer := 1
          authority := 2
          amm_config := 3
          pool_state := 4
          input_token_account := 5
          output_token_account := 6
          input_vault := 7
          output_vault := 8
          input_token_program := 9
          output_token_program := 10
          input_token_mint := 11
          output_token_mint := 12
          observation_state := 13 }) := by
  have h := (C7_cpmm_swap_base_in
    [64, 66, 15, 0, 0, 0, 0, 0, 48, 27, 15, 0, 0, 0, 0, 0]
    [1, 2, 3, 4, 5, 6, 7, 8, 9, 10, 11, 12, 13]
    (EventMetadata.new 0 0 0 0 default default 0 0 none 0 none)).1
    (by decide) (by decide)
  rw [h]
  decide

/-- C6.  The post-processor on a `PumpFunTradeEvent`: sets
`is_dev_create_token_trade` exactly when the PumpFun dev registry for the
event's signature contains the trade's user or creator, sets `is_bot`
exactly when the user equals the bot wallet, rewrites present swap data to
`(sol_amount, token_amount)` for buys and `(token_amount, sol_amount)` for
sells, leaves all other fields of the event untouched and leaves the
registry unchanged. -/
theorem C6_pumpfun_trade_post (reg : DevRegistry) (bot_wallet : Option Pubkey)
    (t : PumpFunTradeEvent) :
    process_event reg bot_wallet (DexEvent.PumpFunTradeEvent t) =
      (reg, DexEvent.PumpFunTradeEvent
        { t with
          is_dev_create_token_trade :=
            is_dev_address_in_signature reg t.metadata.signature t.user ||
            is_dev_address_in_signature reg t.metadata.signature t.creator
          is_bot := some t.user == bot_wallet
          metadata :=
            { t.metadata with
              swap_data := t.metadata.swap_data.map (fun sd =>
                { sd with
                  from_amount := if t.is_buy then t.sol_amount else t.token_amount
                  to_amount := if t.is_buy then t.token_amount else t.sol_amount }) } }) :=
  rfl

/-- The swap-base-input parser stores its metadata argument unchanged. -/
theorem parse_swap_base_input_metadata {data : List Nat} {accounts : List Pubkey}
    {md : EventMetadata} {e : DexEvent}
    (h : parse_swap_base_input_instruction data accounts md = some e) :
    e.metadata = md := by
  unfold parse_swap_base_input_instruction at h
  split at h
  · cases h
  · split at h
    · injection h with h2
      subst h2
      rfl
    · cases h

/-- The swap-base-output parser stores its metadata argument unchanged. -/
theorem parse_swap_base_output_metadata {data : List Nat} {accounts : List Pubkey}
    {md : EventMetadata} {e : DexEvent}
    (h : parse_swap_base_output_instruction data accounts md = some e) :
    e.metadata = md := by
  unfold parse_swap_base_output_instruction at h
  split at h
  · cases h
  · split at h
    · injection h with h2
      subst h2
      rfl
    · cases h

/-- The deposit parser stores its metadata argument unchanged. -/
theorem parse_deposit_metadata {data : List Nat} {accounts : List Pubkey}
    {md : EventMetadata} {e : DexEvent}
    (h : parse_deposit_instruction data accounts md = some e) :
    e.metadata = md := by
  unfold parse_deposit_instruction at h
  split at h
  · cases h
  · split at h
    · injection h with h2
      subst h2
      rfl
    · cases h

/-- The withdraw parser stores its metadata argument unchanged. -/
theorem parse_withdraw_metadata {data : List Nat} {accounts : List Pubkey}
    {md : EventMetadata} {e : DexEvent}
    (h : parse_withdraw_instruction data accounts md = some e) :
    e.metadata = md := by
  unfold parse_withdraw_instruction at h
  split at h
  · cases h
  · split at h
    · injection h with h2
      subst h2
      rfl
    · cases h

/-- The pool-creation parser stores its metadata argument unchanged. -/
theorem parse_init_pool_metadata {data : List Nat} {accounts : List Pubkey}
    {md : EventMetadata} {e : DexEvent}
    (h : parse_init_pool_instruction data accounts md = some e) :
    e.metadata = md := by
  unfold parse_init_pool_instruction at h
  split at h
  · cases h
  · split at h
    · injection h with h2
      subst h2
      rfl
    · cases h

/-- Any event out of the CPMM table entry carries the handed metadata with
only `event_type` replaced. -/
theorem cpmm_instruction_metadata {disc data : List Nat} {accounts : List Pubkey}
    {md : EventMetadata} {e : DexEvent}
    (h : parse_raydium_cpmm_instruction_data disc data accounts md = some e) :
    ∃ et, e.metadata = { md with event_type := et } := by
  unfold parse_raydium_cpmm_instruction_data at h
  split_ifs at h
  · exact ⟨EventType.RaydiumCpmmSwapBaseInput, parse_swap_base_input_metadata h⟩
  · exact ⟨EventType.RaydiumCpmmSwapBaseOutput, parse_swap_base_output_metadata h⟩
  · exact ⟨EventType.RaydiumCpmmDeposit, parse_deposit_metadata h⟩
  · exact ⟨EventType.RaydiumCpmmInitPool, parse_init_pool_metadata h⟩
  · exact ⟨EventType.RaydiumCpmmWithdraw, parse_withdraw_metadata h⟩

/-- C4.  Every event produced through `dispatch_instruction`,
`dispatch_inner_instruction` or `dispatch_account` (instantiated with the
decoders available in the source) carries the protocol tag of the
`Protocol` argument, which the dispatcher stamps before the decoder runs,
and its metadata differs from the handed metadata at most in `event_type`
(and the stamped `protocol`). -/
theorem C4_dispatch_protocol_tag :
    (∀ (p : Protocol) (disc data : List Nat) (accounts : List Pubkey)
        (m : EventMetadata) (e : DexEvent),
      dispatch_instruction realParsers p disc data accounts m = some e →
      e.metadata.protocol = protocolTypeOf p ∧
      e.metadata = { m with protocol := protocolTypeOf p,
                            event_type := e.metadata.event_type }) ∧
    (∀ (p : Protocol) (disc data : List Nat) (m : EventMetadata) (e : DexEvent),
      dispatch_inner_instruction realParsers p disc data m = some e →
      e.metadata.protocol = protocolTypeOf p ∧
      e.metadata = { m with protocol := protocolTypeOf p,
                            event_type := e.metadata.event_type }) ∧
    (∀ (p : Protocol) (disc : List Nat) (acct : AccountPretty)
        (m : EventMetadata) (e : DexEvent),
      dispatch_account realParsers p disc acct m = some e →
      e.metadata.protocol = protocolTypeOf p ∧
      e.metadata = { m with protocol := protocolTypeOf p,
                            event_type := e.metadata.event_type }) := by
  refine ⟨?_, ?_, ?_⟩
  · intro p disc data accounts m e h
    cases p <;> simp only [dispatch_instruction, realParsers, trivialParsers] at h
    case RaydiumCpmm =>
      obtain ⟨et, hmd⟩ := cpmm_instruction_metadata h
      constructor
      · rw [hmd]
      · rw [hmd]
    all_goals cases h
  · intro p disc data m e h
    cases h
  · intro p disc acct m e h
    cases h

/-- Witness for C4: a concrete CPMM SwapBaseIn dispatch succeeds and its
event is tagged `RaydiumCpmm`. -/
theorem C4_dispatch_protocol_tag_witness :
    (dispatch_instruction realParsers Protocol.RaydiumCpmm SWAP_BASE_IN
        (List.replicate 16 0) (List.replicate 13 7)
        (EventMetadata.new 0 0 0 0 default default 0 0 none 0 none)).isSome = true ∧
    (dispatch_instruction realParsers Protocol.RaydiumCpmm SWAP_BASE_IN
        (List.replicate 16 0) (List.replicate 13 7)
        (EventMetadata.new 0 0 0 0 default default 0 0 none 0 none)).map
      (fun e => e.metadata.protocol) = some ProtocolType.RaydiumCpmm := by
  constructor
  · decide
  · cases hd : dispatch_instruction realParsers Protocol.RaydiumCpmm SWAP_BASE_IN
        (List.replicate 16 0) (List.replicate 13 7)
        (EventMetadata.new 0 0 0 0 default default 0 0 none 0 none) with
    | none =>
      exact absurd hd (by decide)
    | some e =>
      have h := (C4_dispatch_protocol_tag.1 Protocol.RaydiumCpmm SWAP_BASE_IN
        (List.replicate 16 0) (List.replicate 13 7)
        (EventMetadata.new 0 0 0 0 default default 0 0 none 0 none) e hd).1
      simp [h, protocolTypeOf]

/-- A program id recognised as a DEX protocol is never the compute-budget
program id. -/
theorem match_protocol_some_ne_cu {program_id : Pubkey} {p : Protocol}
    (h : match_protocol_by_program_id program_id = some p) :
    is_compute_budget_program program_id = false := by
  unfold match_protocol_by_program_id at h
  split_ifs at h with h1 h2 h3 h4 h5 h6 h7 <;>
    first
      | (subst h1; decide)
      | (subst h2; decide)
      | (subst h3; decide)
      | (subst h4; decide)
      | (subst h5; decide)
      | (subst h6; decide)
      | (subst h7; decide)

/-- C10.  `should_handle` accepts the compute-budget program id regardless
of the `protocols` argument; for a program id mapping to a DEX protocol it
is exactly membership in `protocols`; and the walker, on an instruction
whose program id is the compute-budget id, emits exactly the event the
compute-budget decoder yields, independently of `protocols`. -/
theorem C10_compute_budget_unconditional :
    (∀ protocols : List Protocol,
      should_handle protocols COMPUTE_BUDGET_PROGRAM_ID = true) ∧
    (∀ (program_id : Pubkey) (p : Protocol),
      match_protocol_by_program_id program_id = some p →
      ∀ protocols : List Protocol,
        should_handle protocols program_id = protocols.contains p) ∧
    (∀ (P : ProtocolParsers) (protocols : List Protocol)
        (instruction : CompiledInstruction) (accounts : List Pubkey)
        (signature slot : Nat) (block_time : Option Timestamp)
        (recv_us outer_index : Int) (inner_index : Option Int)
        (bot_wallet : Option Pubkey) (transaction_index : Option Nat)
        (inner_instructions : Option InnerInstructionsGrpc)
        (reg : DevRegistry) (now_us : Int),
      instruction.program_id_index < accounts.length →
      accounts.getD instruction.program_id_index 0 = COMPUTE_BUDGET_PROGRAM_ID →
      (parse_events_from_grpc_instruction P protocols instruction accounts signature
          slot block_time recv_us outer_index inner_index bot_wallet
          transaction_index inner_instructions reg now_us).events =
        (dispatch_compute_budget_instruction P instruction.data
          (walkerMetadata signature slot block_time COMPUTE_BUDGET_PROGRAM_ID
            outer_index inner_index recv_us transaction_index)).toList) := by
  refine ⟨?_, ?_, ?_⟩
  · intro protocols
    rfl
  · intro program_id p h protocols
    unfold should_handle
    rw [h]
  · intro P protocols instruction accounts signature slot block_time recv_us
      outer_index inner_index bot_wallet transaction_index inner_instructions reg
      now_us h1 h2
    unfold parse_events_from_grpc_instruction
    rw [if_neg (by omega)]
    simp only [h2]
    rw [if_neg (by simp [should_handle, match_protocol_by_program_id,
      is_compute_budget_program, PUMPFUN_PROGRAM_ID, PUMPSWAP_PROGRAM_ID,
      BONK_PROGRAM_ID, RAYDIUM_CPMM_PROGRAM_ID, RAYDIUM_CLMM_PROGRAM_ID,
      RAYDIUM_AMM_V4_PROGRAM_ID, METEORA_DAMM_V2_PROGRAM_ID,
      COMPUTE_BUDGET_PROGRAM_ID])]
    rw [if_neg (by simp [is_compute_budget_program, COMPUTE_BUDGET_PROGRAM_ID])]
    rw [if_pos (by simp [is_compute_budget_program, COMPUTE_BUDGET_PROGRAM_ID])]
    cases hc : dispatch_compute_budget_instruction P instruction.data
        (walkerMetadata signature slot block_time COMPUTE_BUDGET_PROGRAM_ID
          outer_index inner_index recv_us transaction_index) with
    | none => rfl
    | some e => rfl

/-- Witness for C10: a compute-budget instruction under an empty protocols
list still emits the decoder's event. -/
theorem C10_compute_budget_witness :
    (parse_events_from_grpc_instruction
        { trivialParsers with
          cuParse := fun d md => some (DexEvent.ComputeBudgetEvent ⟨md, d⟩) }
        [] ⟨0, [], [3, 0, 64, 66, 15, 0, 0, 0, 0, 0]⟩ [COMPUTE_BUDGET_PROGRAM_ID]
        0 0 none 0 0 none none none none emptyReg 0).events =
      (dispatch_compute_budget_instruction
        { trivialParsers with
          cuParse := fun d md => some (DexEvent.ComputeBudgetEvent ⟨md, d⟩) }
        [3, 0, 64, 66, 15, 0, 0, 0, 0, 0]
        (walkerMetadata 0 0 none COMPUTE_BUDGET_PROGRAM_ID 0 none 0 none)).toList :=
  C10_compute_budget_unconditional.2.2
    { trivialParsers with
      cuParse := fun d md => some (DexEvent.ComputeBudgetEvent ⟨md, d⟩) }
    [] ⟨0, [], [3, 0, 64, 66, 15, 0, 0, 0, 0, 0]⟩ [COMPUTE_BUDGET_PROGRAM_ID]
    0 0 none 0 0 none none none none emptyReg 0 (by decide) (by decide)

/-- C3.  The walker uses discriminator length 1 exactly for the Raydium
AMM V4 program and 8 for every other program id; and a non-compute-budget
instruction whose program id maps to a recognized protocol but whose
payload is shorter than that discriminator length yields no event, no
decoder invocation and no registry change (the walker returns `Ok`
silently). -/
theorem C3_discriminator_length :
    (discLenFor RAYDIUM_AMM_V4_PROGRAM_ID = 1) ∧
    (∀ program_id : Pubkey, program_id ≠ RAYDIUM_AMM_V4_PROGRAM_ID →
      discLenFor program_id = 8) ∧
    (∀ (P : ProtocolParsers) (protocols : List Protocol)
        (instruction : CompiledInstruction) (accounts : List Pubkey)
        (signature slot : Nat) (block_time : Option Timestamp)
        (recv_us outer_index : Int) (inner_index : Option Int)
        (bot_wallet : Option Pubkey) (transaction_index : Option Nat)
        (inner_instructions : Option InnerInstructionsGrpc)
        (reg : DevRegistry) (now_us : Int) (p : Protocol),
      instruction.program_id_index < accounts.length →
      match_protocol_by_program_id
        (accounts.getD instruction.program_id_index 0) = some p →
      instruction.data.length <
        discLenFor (accounts.getD instruction.program_id_index 0) →
      parse_events_from_grpc_instruction P protocols instruction accounts signature
          slot block_time recv_us outer_index inner_index bot_wallet
          transaction_index inner_instructions reg now_us =
        ⟨[], reg, []⟩) := by
  refine ⟨rfl, ?_, ?_⟩
  · intro program_id h
    unfold discLenFor
    rw [if_neg h]
  · intro P protocols instruction accounts signature slot block_time recv_us
      outer_index inner_index bot_wallet transaction_index inner_instructions reg
      now_us p h1 hp hlen
    have hcu := match_protocol_some_ne_cu hp
    simp only [parse_events_from_grpc_instruction]
    rw [if_neg (by omega)]
    by_cases hs : should_handle protocols (accounts.getD instruction.program_id_index 0) = true
    · rw [if_neg (not_not_intro hs)]
      rw [if_pos ⟨by simp only [hcu]; decide, hlen⟩]
    · rw [if_pos hs]

/-- Witness for C3: a CPMM instruction with a 3-byte payload produces no
event, no decoder call and no registry change. -/
theorem C3_discriminator_length_witness :
    parse_events_from_grpc_instruction realParsers [Protocol.RaydiumCpmm]
        ⟨0, [], [1, 2, 3]⟩ [RAYDIUM_CPMM_PROGRAM_ID] 0 0 none 0 0 none none none
        none emptyReg 0 = ⟨[], emptyReg, []⟩ :=
  C3_discriminator_length.2.2 realParsers [Protocol.RaydiumCpmm]
    ⟨0, [], [1, 2, 3]⟩ [RAYDIUM_CPMM_PROGRAM_ID] 0 0 none 0 0 none none none
    none emptyReg 0 Protocol.RaydiumCpmm (by decide) (by decide) (by decide)

/-- C5.  For an outer PumpFun instruction that the decoder recognises:
when its 8-byte discriminator is the MIGRATE sequence
`[155,234,231,146,236,158,162,30]` and the inner-instruction scan finds no
inner (CPI-log) event — whether because the transaction has no inner
instructions for that outer index or because the group's scan recognises
nothing — the walker emits nothing; with any other discriminator, or when
an inner event is found, the rule does not suppress emission (exactly one
event is emitted). -/
theorem C5_pumpfun_migrate_rule (P : ProtocolParsers) (protocols : List Protocol)
    (instruction : CompiledInstruction) (accounts : List Pubkey)
    (signature slot : Nat) (block_time : Option Timestamp)
    (recv_us outer_index : Int) (bot_wallet : Option Pubkey)
    (transaction_index : Option Nat)
    (inner_instructions : Option InnerInstructionsGrpc)
    (reg : DevRegistry) (now_us : Int) (e : DexEvent)
    (h1 : instruction.program_id_index < accounts.length)
    (hpid : accounts.getD instruction.program_id_index 0 = PUMPFUN_PROGRAM_ID)
    (hprot : protocols.contains Protocol.PumpFun = true)
    (hdata : 8 ≤ instruction.data.length)
    (hdisp : dispatch_instruction P Protocol.PumpFun (instruction.data.take 8)
      (instruction.data.drop 8) (handedAccounts instruction accounts)
      (walkerMetadata signature slot block_time PUMPFUN_PROGRAM_ID outer_index
        none recv_us transaction_index) = some e) :
    (scanInnerEvent P Protocol.PumpFun
        (walkerMetadata signature slot block_time PUMPFUN_PROGRAM_ID outer_index
          none recv_us transaction_index) (-1) inner_instructions = none →
      (instruction.data.take 8 = PUMPFUN_MIGRATE_IX →
        (parse_events_from_grpc_instruction P protocols instruction accounts signature
            slot block_time recv_us outer_index none bot_wallet transaction_index
            inner_instructions reg now_us).events = []) ∧
      (instruction.data.take 8 ≠ PUMPFUN_MIGRATE_IX →
        (parse_events_from_grpc_instruction P protocols instruction accounts signature
            slot block_time recv_us outer_index none bot_wallet transaction_index
            inner_instructions reg now_us).events.length = 1)) ∧
    (∀ ie : DexEvent,
      scanInnerEvent P Protocol.PumpFun
        (walkerMetadata signature slot block_time PUMPFUN_PROGRAM_ID outer_index
          none recv_us transaction_index) (-1) inner_instructions = some ie →
      (parse_events_from_grpc_instruction P protocols instruction accounts signature
          slot block_time recv_us outer_index none bot_wallet transaction_index
          inner_instructions reg now_us).events.length = 1) := by
  have hm : match_protocol_by_program_id PUMPFUN_PROGRAM_ID = some Protocol.PumpFun := by
    decide
  have h8 : discLenFor PUMPFUN_PROGRAM_ID = 8 := by decide
  have hsh : should_handle protocols PUMPFUN_PROGRAM_ID = true := by
    unfold should_handle
    rw [hm]
    exact hprot
  constructor
  · intro hscan
    constructor
    · intro hmig
      simp only [parse_events_from_grpc_instruction]
      rw [if_neg (by omega)]
      simp only [hpid, hsh, h8, hm]
      rw [if_neg (by simp)]
      rw [if_neg (by simp [show ¬ (instruction.data.length < 8) by omega,
        is_compute_budget_program, PUMPFUN_PROGRAM_ID, COMPUTE_BUDGET_PROGRAM_ID])]
      rw [if_neg (by simp [is_compute_budget_program, PUMPFUN_PROGRAM_ID,
        COMPUTE_BUDGET_PROGRAM_ID])]
      simp only [hdisp, Option.getD_none, hscan]
      rw [if_pos ⟨trivial, hmig, trivial⟩]
    · intro hmig
      simp only [parse_events_from_grpc_instruction]
      rw [if_neg (by omega)]
      simp only [hpid, hsh, h8, hm]
      rw [if_neg (by simp)]
      rw [if_neg (by simp [show ¬ (instruction.data.length < 8) by omega,
        is_compute_budget_program, PUMPFUN_PROGRAM_ID, COMPUTE_BUDGET_PROGRAM_ID])]
      rw [if_neg (by simp [is_compute_budget_program, PUMPFUN_PROGRAM_ID,
        COMPUTE_BUDGET_PROGRAM_ID])]
      simp only [hdisp, Option.getD_none, hscan]
      rw [if_neg (by
        intro hc
        exact hmig hc.2.1)]
      rfl
  · intro ie hscan
    simp only [parse_events_from_grpc_instruction]
    rw [if_neg (by omega)]
    simp only [hpid, hsh, h8, hm]
    rw [if_neg (by simp)]
    rw [if_neg (by simp [show ¬ (instruction.data.length < 8) by omega,
      is_compute_budget_program, PUMPFUN_PROGRAM_ID, COMPUTE_BUDGET_PROGRAM_ID])]
    rw [if_neg (by simp [is_compute_budget_program, PUMPFUN_PROGRAM_ID,
      COMPUTE_BUDGET_PROGRAM_ID])]
    simp only [hdisp, Option.getD_none, hscan]
    rw [if_neg (by
      intro hc
      exact Option.noConfusion hc.2.2)]
    rfl

/-- Witness for C5: an outer PumpFun MIGRATE instruction whose
inner-instruction group is present but yields no recognised inner event
(its only inner instruction is shorter than the 16-byte inner
discriminator) emits nothing even though the decoder recognised it. -/
theorem C5_pumpfun_migrate_rule_witness :
    (parse_events_from_grpc_instruction pumpfunStubParsers [Protocol.PumpFun]
        ⟨0, [], PUMPFUN_MIGRATE_IX⟩ [PUMPFUN_PROGRAM_ID] 0 0 none 0 0 none none
        none (some ⟨0, [⟨0, [], [1, 2, 3]⟩]⟩) emptyReg 0).events = [] :=
  ((C5_pumpfun_migrate_rule pumpfunStubParsers [Protocol.PumpFun]
    ⟨0, [], PUMPFUN_MIGRATE_IX⟩ [PUMPFUN_PROGRAM_ID] 0 0 none 0 0 none none
    (some ⟨0, [⟨0, [], [1, 2, 3]⟩]⟩) emptyReg 0
    (DexEvent.PumpFunMigrateEvent
      ⟨⟨0, 0, 0, 0, ProtocolType.PumpFun, EventType.Unknown, PUMPFUN_PROGRAM_ID,
        0, none, 0, 0, none, none⟩⟩)
    (by decide) (by decide) (by decide) (by decide) (by decide)).1 (by decide)).1 rfl

/-- The seed of a `foldl max` is below the result. -/
theorem seed_le_foldl_max (idxs : List Nat) : ∀ a : Nat, a ≤ idxs.foldl max a := by
  induction idxs with
  | nil => intro a; exact le_refl a
  | cons x rest ih =>
    intro a
    exact le_trans (le_max_left a x) (ih (max a x))

/-- Every member of a list is below its `foldl max`. -/
theorem mem_le_foldl_max (idxs : List Nat) :
    ∀ (a i : Nat), i ∈ idxs → i ≤ idxs.foldl max a := by
  induction idxs with
  | nil => intro a i hi; cases hi
  | cons x rest ih =>
    intro a i hi
    rcases List.mem_cons.mp hi with h | h
    · subst h
      exact le_trans (le_max_right a i) (seed_le_foldl_max rest (max a i))
    · exact ih (max a x) i h

/-- After padding by an instruction's index list, every listed index is in
range. -/
theorem padAccounts_length_gt (accounts : List Pubkey) (idxs : List Nat) :
    ∀ i ∈ idxs, i < (padAccounts accounts idxs).length := by
  intro i hi
  have hle := mem_le_foldl_max idxs 0 i hi
  unfold padAccounts
  by_cases h : accounts.length ≤ idxs.foldl max 0
  · rw [if_pos h]
    rw [List.length_append, List.length_replicate]
    omega
  · rw [if_neg h]
    omega

/-- Padding a zero-extended account array again only appends more zeros. -/
theorem padAccounts_zeros (a0 : List Pubkey) (k : Nat) (idxs : List Nat) :
    ∃ k2, padAccounts (a0 ++ List.replicate k 0) idxs = a0 ++ List.replicate k2 0 := by
  unfold padAccounts
  by_cases h : (a0 ++ List.replicate k 0).length ≤ idxs.foldl max 0
  · rw [if_pos h]
    refine ⟨k + (idxs.foldl max 0 + 1 - (a0 ++ List.replicate k 0).length), ?_⟩
    rw [List.append_assoc, ← List.replicate_add]
  · rw [if_neg h]
    exact ⟨k, rfl⟩

/-- Reading with a zero default through a zero-padded array equals reading
the original array. -/
theorem getD_append_zeros (a0 : List Pubkey) (k i : Nat) :
    (a0 ++ List.replicate k 0).getD i 0 = a0.getD i 0 := by
  rcases Nat.lt_or_ge i a0.length with h | h
  · rw [List.getD_eq_getElem?_getD, List.getD_eq_getElem?_getD,
      List.getElem?_append, if_pos h]
  · rw [List.getD_eq_getElem?_getD, List.getD_eq_getElem?_getD,
      List.getElem?_append_right h, List.getElem?_eq_none h]
    rw [List.getElem?_replicate]
    split
    · rfl
    · rfl

/-- When every listed index is in range, the `filter_map` lookup keeps one
entry per index and equals the zero-defaulted map. -/
theorem handedAccounts_all_in_range (instruction : CompiledInstruction)
    (accounts : List Pubkey)
    (h : ∀ i ∈ instruction.accounts, i < accounts.length) :
    handedAccounts instruction accounts =
      instruction.accounts.map (fun i => accounts.getD i 0) := by
  unfold handedAccounts
  have key : ∀ idxs : List Nat, (∀ i ∈ idxs, i < accounts.length) →
      List.filterMap (fun idx => accounts.get? idx) idxs =
        List.map (fun i => accounts.getD i 0) idxs := by
    intro idxs
    induction idxs with
    | nil => intro _; rfl
    | cons x rest ih =>
      intro h2
      have hx := h2 x (List.mem_cons_self x rest)
      cases hg : accounts.get? x with
      | none =>
        rw [List.get?_eq_none] at hg
        omega
      | some v =>
        have hget : accounts.getD x 0 = v := by
          rw [List.getD_eq_getElem?_getD, ← List.get?_eq_getElem?, hg]
          rfl
        simp only [List.filterMap_cons, hg, List.map_cons, hget]
        rw [ih (fun i hi => h2 i (List.mem_cons_of_mem x hi))]
  exact key instruction.accounts h

/-- Every decoder invocation the walker records for one instruction hands
exactly `handedAccounts instruction accounts` for that instruction's index
list, at the walker's own inner index. -/
theorem parse_events_calls (P : ProtocolParsers) (protocols : List Protocol)
    (instruction : CompiledInstruction) (accounts : List Pubkey)
    (signature slot : Nat) (block_time : Option Timestamp)
    (recv_us outer_index : Int) (inner_index : Option Int)
    (bot_wallet : Option Pubkey) (transaction_index : Option Nat)
    (inner_instructions : Option InnerInstructionsGrpc)
    (reg : DevRegistry) (now_us : Int) :
    ∀ c ∈ (parse_events_from_grpc_instruction P protocols instruction accounts
        signature slot block_time recv_us outer_index inner_index bot_wallet
        transaction_index inner_instructions reg now_us).calls,
      c = ⟨inner_index, instruction.accounts, handedAccounts instruction accounts⟩ := by
  intro c hc
  simp only [parse_events_from_grpc_instruction] at hc
  split at hc
  · simp at hc
  · split at hc
    · simp at hc
    · split at hc
      · simp at hc
      · split at hc
        · split at hc
          · simp at hc
          · simp at hc
        · split at hc
          · simp at hc
          · split at hc
            · simp at hc
              exact hc
            · split at hc
              · simp at hc
                exact hc
              · simp at hc
                exact hc

/-- Every decoder invocation recorded by the inner loop carries a `Some`
inner index and the `filter_map` account lookup of some inner instruction
against the given (outer-padded) account array. -/
theorem walkInnerLoop_calls (ctx : WalkCtx) (group : InnerInstructionsGrpc)
    (accounts : List Pubkey) :
    ∀ (rest : List InnerInstructionGrpc) (pos : Nat) (reg : DevRegistry),
      ∀ c ∈ (walkInnerLoop ctx group accounts pos rest reg).calls,
        ∃ (instr : CompiledInstruction) (p : Nat),
          c = ⟨some (p : Int), instr.accounts, handedAccounts instr accounts⟩ := by
  intro rest
  induction rest with
  | nil =>
    intro pos reg c hc
    simp [walkInnerLoop] at hc
  | cons inner tail ih =>
    intro pos reg c hc
    simp only [walkInnerLoop] at hc
    rw [List.mem_append] at hc
    rcases hc with hc | hc
    · have h := parse_events_calls ctx.P ctx.protocols
        ⟨inner.program_id_index, inner.accounts, inner.data⟩ accounts
        ctx.signature ctx.slot ctx.block_time ctx.recv_us (group.index : Int)
        (some (pos : Int)) ctx.bot_wallet ctx.transaction_index (some group)
        reg ctx.now_us c hc
      exact ⟨⟨inner.program_id_index, inner.accounts, inner.data⟩, pos, h⟩
    · exact ih (pos + 1) _ c hc

/-- Trace property of the outer loop: starting from a zero-padded extension
of `accounts0`, every outer-instruction decoder call hands the
zero-defaulted lookup of its index list against `accounts0` (one entry per
index), and every call (outer or inner) hands at most one entry per
index. -/
theorem walkOuterLoop_calls (ctx : WalkCtx) (instructions : List CompiledInstruction)
    (accounts0 : List Pubkey) :
    ∀ (index : Nat) (accounts : List Pubkey) (groups : List InnerInstructionsGrpc)
      (reg : DevRegistry) (k : Nat),
      accounts = accounts0 ++ List.replicate k 0 →
      ∀ c ∈ (walkOuterLoop ctx index instructions accounts groups reg).calls,
        (c.inner_index = none →
          c.handed_accounts = c.account_indices.map (fun i => accounts0.getD i 0) ∧
          c.handed_accounts.length = c.account_indices.length) ∧
        c.handed_accounts.length ≤ c.account_indices.length := by
  induction instructions with
  | nil =>
    intro index accounts groups reg k hacc c hc
    simp [walkOuterLoop] at hc
  | cons instruction rest ih =>
    intro index accounts groups reg k hacc c hc
    subst hacc
    obtain ⟨k2, hk2⟩ := padAccounts_zeros accounts0 k instruction.accounts
    simp only [walkOuterLoop] at hc
    split at hc
    · simp only [List.mem_append] at hc
      rcases hc with (hc | hc) | hc
      · split at hc
        · have h := parse_events_calls ctx.P ctx.protocols instruction
            (padAccounts (accounts0 ++ List.replicate k 0) instruction.accounts)
            ctx.signature ctx.slot ctx.block_time ctx.recv_us (index : Int) none
            ctx.bot_wallet ctx.transaction_index
            (List.find? (fun g => g.index == index) groups)
            reg ctx.now_us c hc
          rw [h]
          have hrange := padAccounts_length_gt
            (accounts0 ++ List.replicate k 0) instruction.accounts
          have heq := handedAccounts_all_in_range instruction
            (padAccounts (accounts0 ++ List.replicate k 0) instruction.accounts) hrange
          constructor
          · intro _
            constructor
            · show handedAccounts instruction
                  (padAccounts (accounts0 ++ List.replicate k 0) instruction.accounts) =
                instruction.accounts.map (fun i => accounts0.getD i 0)
              rw [heq, hk2]
              simp only [getD_append_zeros]
            · show (handedAccounts instruction
                  (padAccounts (accounts0 ++ List.replicate k 0) instruction.accounts)).length =
                instruction.accounts.length
              rw [heq, List.length_map]
          · show (handedAccounts instruction
                (padAccounts (accounts0 ++ List.replicate k 0) instruction.accounts)).length ≤
              instruction.accounts.length
            rw [heq, List.length_map]
        · simp at hc
      · split at hc
        · rename_i g hg
          obtain ⟨instr, p, hcp⟩ := walkInnerLoop_calls ctx g
            (padAccounts (accounts0 ++ List.replicate k 0) instruction.accounts)
            g.instructions 0 _ c hc
          rw [hcp]
          constructor
          · intro hnone
            simp at hnone
          · show (handedAccounts instr
                (padAccounts (accounts0 ++ List.replicate k 0) instruction.accounts)).length ≤
              instr.accounts.length
            exact List.length_filterMap_le _ _
        · simp at hc
      · exact ih (index + 1)
          (padAccounts (accounts0 ++ List.replicate k 0) instruction.accounts)
          groups _ k2 hk2 c hc
    · exact ih (index + 1) (accounts0 ++ List.replicate k 0) groups reg k rfl c hc

/-- C2 (amended).  In a gRPC transaction walk, for every decoder invocation
arising from an OUTER instruction the handed account array has exactly one
entry per listed index: the transaction's account key when the index is in
range and the zero key otherwise (the walker pads the array by the outer
instruction's largest index first).  For invocations arising from INNER
instructions the array is not re-padded: indices beyond the (outer-padded)
account array are silently dropped by the `filter_map` lookup, so the
handed array can have fewer entries than the listed indices (at most one
entry per index). -/
theorem C2_account_array_amended (ctx : WalkCtx)
    (compiled_instructions : List CompiledInstruction) (accounts : List Pubkey)
    (inner_instructions : List InnerInstructionsGrpc) (reg : DevRegistry) :
    ∀ c ∈ (parse_instruction_events_from_grpc_transaction ctx compiled_instructions
        accounts inner_instructions reg).calls,
      (c.inner_index = none →
        c.handed_accounts = c.account_indices.map (fun i => accounts.getD i 0) ∧
        c.handed_accounts.length = c.account_indices.length) ∧
      c.handed_accounts.length ≤ c.account_indices.length := by
  intro c hc
  unfold parse_instruction_events_from_grpc_transaction at hc
  split at hc
  · exact walkOuterLoop_calls ctx compiled_instructions accounts 0 accounts
      inner_instructions reg 0 (by simp) c hc
  · simp at hc

/-- Witness for C2 (amended): an outer CPMM instruction listing indices
`[0, 3]` against a single-key account array is handed exactly the key at
index 0 and a zero key for the out-of-range index 3. -/
theorem C2_account_array_witness :
    (⟨none, [0, 3], [RAYDIUM_CPMM_PROGRAM_ID, 0]⟩ : DispatchCall).handed_accounts =
      [0, 3].map (fun i => ([RAYDIUM_CPMM_PROGRAM_ID] : List Pubkey).getD i 0) :=
  ((C2_account_array_amended
      ⟨realParsers, [Protocol.RaydiumCpmm], 0, 0, none, 0, none, none, 0⟩
      [⟨0, [0, 3], SWAP_BASE_IN⟩] [RAYDIUM_CPMM_PROGRAM_ID] [] emptyReg
      ⟨none, [0, 3], [RAYDIUM_CPMM_PROGRAM_ID, 0]⟩ (by decide)).1 rfl).1

/-- Counterexample to C2 as stated: an inner instruction listing index 5
against the one-key account array is handed an EMPTY account array — the
out-of-range index is dropped rather than replaced by a zero key, so the
decoder does not get one entry per listed index. -/
theorem C2_account_array_counterexample :
    (parse_instruction_events_from_grpc_transaction
        ⟨realParsers, [Protocol.RaydiumCpmm], 0, 0, none, 0, none, none, 0⟩
        [⟨0, [0], SWAP_BASE_IN⟩] [RAYDIUM_CPMM_PROGRAM_ID]
        [⟨0, [⟨0, [5], SWAP_BASE_IN⟩]⟩] emptyReg).calls =
      [⟨none, [0], [RAYDIUM_CPMM_PROGRAM_ID]⟩, ⟨some 0, [5], []⟩] ∧
    ([] : List Pubkey) ≠
      [5].map (fun i => ([RAYDIUM_CPMM_PROGRAM_ID] : List Pubkey).getD i 0) := by
  constructor
  · decide
  · decide
